import Mathlib

/-
Verification development for the export-toolkit repository (CSV/JSON data
export library).  The definitions below are shallow embeddings of the
TypeScript sources:

  - src/errors.ts                      -> WriterError
  - src/writers/csv/CsvFormatter.ts    -> formatValue, formatRow
  - src/writers/csv/CsvHeaderManager.ts-> HMState, initialize, getHeaders, ...
  - src/writers/csv/CsvWriter.ts       -> csvWriteSync, csvAppendSync, ...
  - src/writers/json/JsonFormatter.ts  -> jsonFormatArray
  - src/writers/json/JsonWriter.ts     -> jsonWrite, jsonAppend, loadExisting
  - src/streaming/BatchProcessor.ts    -> processLoop, process, collectLimit
  - src/streaming/StreamingWriter.ts   -> streamBatches, streamCsv, streamJson

File contents are modelled as explicit strings; the file sink (FileWriter) is
modelled as a pure state update that always succeeds, matching its role as an
external collaborator.  JavaScript numbers are modelled as integers (the
library's own tests only exercise integral values; IEEE-754 fraction and
exponent forms are outside the model).
-/

namespace ExportToolkit

/-- Error taxonomy of src/errors.ts; each constructor carries the message
passed to the corresponding Error subclass.  The extra uncaughtException
constructor is a modelling device: it stands for a JavaScript exception that
escapes a public method without being converted to a Result (the source has
no catch on that path); the file is unchanged when it is produced. -/
inductive WriterError where
  | validationError (msg : String)
  | headerInitializationError (msg : String)
  | csvFormattingError (msg : String)
  | jsonFormattingError (msg : String)
  | uncaughtException (msg : String)
  deriving DecidableEq, Repr

/-- Discriminated Result type of src/types.ts: success with a value or failure
with a structured error. -/
abbrev WResult (α : Type) := Except WriterError α

mutual
/-- JSON values (records, parsed file content, composite CSV cell values).
Mutual with its own list types so that all recursion below is structural and
kernel-evaluable.  Numbers are modelled as integers. -/
inductive Json where
  | jnull : Json
  | jbool (b : Bool) : Json
  | jnum (n : Int) : Json
  | jstr (s : String) : Json
  | jarr (elems : JsonList) : Json
  | jobj (members : JsonMembers) : Json

/-- A list of JSON values, as a standalone inductive. -/
inductive JsonList where
  | nil : JsonList
  | cons (hd : Json) (tl : JsonList) : JsonList

/-- Members of a JSON object: ordered key/value pairs. -/
inductive JsonMembers where
  | nil : JsonMembers
  | cons (key : String) (val : Json) (tl : JsonMembers) : JsonMembers
end

/-- Converts a standard list of JSON values into the mutual-inductive list. -/
def toJsonList : List Json → JsonList
  | [] => JsonList.nil
  | j :: rest => JsonList.cons j (toJsonList rest)

/-- Converts the mutual-inductive list back to a standard list. -/
def ofJsonList : JsonList → List Json
  | JsonList.nil => []
  | JsonList.cons j rest => j :: ofJsonList rest

/-- Array.prototype.join: elements joined by a separator, empty string for
an empty list (String.intercalate is not kernel-reducible, so the model uses
this structural equivalent). -/
def joinSep (sep : String) : List String → String
  | [] => ""
  | [x] => x
  | x :: rest => x ++ sep ++ joinSep sep rest

/-- Lowercase hexadecimal digit, as used by JSON.stringify control escapes. -/
def hexDigit (n : Nat) : Char :=
  if n < 10 then Char.ofNat (48 + n) else Char.ofNat (87 + n)

/-- JSON string escaping of a single character, per JSON.stringify: quote,
backslash, the named control escapes, and \u00xx for other control
characters. -/
def jsonEscapeChar (c : Char) : String :=
  if c = '"' then "\\\""
  else if c = '\\' then "\\\\"
  else if c = '\x08' then "\\b"
  else if c = '\x0c' then "\\f"
  else if c = '\n' then "\\n"
  else if c = '\r' then "\\r"
  else if c = '\t' then "\\t"
  else if c.toNat < 0x20 then
    "\\u00" ++ String.singleton (hexDigit (c.toNat / 16)) ++
      String.singleton (hexDigit (c.toNat % 16))
  else String.singleton c

/-- A JSON string literal: quoted and escaped, per JSON.stringify. -/
def jsonQuoteString (s : String) : String :=
  "\"" ++ String.join (s.data.map jsonEscapeChar) ++ "\""

mutual
/-- Compact JSON serialization, modelling JSON.stringify(x) with no
space argument (JsonFormatter.format with prettyPrint disabled). -/
def jsonStringify : Json → String
  | Json.jnull => "null"
  | Json.jbool b => cond b "true" "false"
  | Json.jnum n => toString n
  | Json.jstr s => jsonQuoteString s
  | Json.jarr l => "[" ++ jsonStringifyElems l ++ "]"
  | Json.jobj m => "\x7b" ++ jsonStringifyMembers m ++ "\x7d"

/-- Compact serialization of array elements, comma separated. -/
def jsonStringifyElems : JsonList → String
  | JsonList.nil => ""
  | JsonList.cons j JsonList.nil => jsonStringify j
  | JsonList.cons j rest => jsonStringify j ++ "," ++ jsonStringifyElems rest

/-- Compact serialization of object members, comma separated. -/
def jsonStringifyMembers : JsonMembers → String
  | JsonMembers.nil => ""
  | JsonMembers.cons k v JsonMembers.nil => jsonQuoteString k ++ ":" ++ jsonStringify v
  | JsonMembers.cons k v rest =>
      jsonQuoteString k ++ ":" ++ jsonStringify v ++ "," ++ jsonStringifyMembers rest
end

/-- The indentation produced for nesting depth d with the given gap string. -/
def gapIndent (gap : String) (d : Nat) : String :=
  String.join (List.replicate d gap)

mutual
/-- Pretty JSON serialization, modelling JSON.stringify(x, null, gap) for a
non-empty gap string of spaces. -/
def jsonStringifyP (gap : String) (d : Nat) : Json → String
  | Json.jarr JsonList.nil => "[]"
  | Json.jarr l =>
      "[\n" ++ jsonStringifyPElems gap (d + 1) l ++ "\n" ++ gapIndent gap d ++ "]"
  | Json.jobj JsonMembers.nil => "\x7b\x7d"
  | Json.jobj m =>
      "\x7b\n" ++ jsonStringifyPMembers gap (d + 1) m ++ "\n" ++ gapIndent gap d ++ "\x7d"
  | j => jsonStringify j

/-- Pretty serialization of array elements, each on an indented line. -/
def jsonStringifyPElems (gap : String) (d : Nat) : JsonList → String
  | JsonList.nil => ""
  | JsonList.cons j JsonList.nil => gapIndent gap d ++ jsonStringifyP gap d j
  | JsonList.cons j rest =>
      gapIndent gap d ++ jsonStringifyP gap d j ++ ",\n" ++ jsonStringifyPElems gap d rest

/-- Pretty serialization of object members, each on an indented line. -/
def jsonStringifyPMembers (gap : String) (d : Nat) : JsonMembers → String
  | JsonMembers.nil => ""
  | JsonMembers.cons k v JsonMembers.nil =>
      gapIndent gap d ++ jsonQuoteString k ++ ": " ++ jsonStringifyP gap d v
  | JsonMembers.cons k v rest =>
      gapIndent gap d ++ jsonQuoteString k ++ ": " ++ jsonStringifyP gap d v ++ ",\n" ++
        jsonStringifyPMembers gap d rest
end

/-- JsonFormatter.format(data, isArrayContext = true) on a top-level array:
pretty-printed with the configured indent when prettyPrint is set and the
indent is non-zero (JSON.stringify with an empty gap is compact output),
otherwise the compact literal. -/
def jsonFormatArray (prettyPrint : Bool) (indent : Nat) (l : List Json) : String :=
  if prettyPrint ∧ indent ≠ 0 then
    let gap := String.mk (List.replicate indent ' ')
    match l with
    | [] => "[]"
    | _ =>
      "[\n" ++ joinSep ",\n" (l.map (fun j => gap ++ jsonStringifyP gap 1 j)) ++
        "\n]"
  else
    "[" ++ joinSep "," (l.map jsonStringify) ++ "]"

/-- Runtime value of a record cell, as far as CsvFormatter.formatValue
distinguishes TypeScript values: null, undefined, string, number, boolean,
or any other object/array value (serialized via JSON.stringify). -/
inductive JsValue where
  | vNull
  | vUndefined
  | vStr (s : String)
  | vNum (n : Int)
  | vBool (b : Bool)
  | vObj (j : Json)

/-- The string form the formatter derives from a non-null value
(CsvFormatter.ts lines 26-34): strings verbatim, numbers/booleans via
String(...), anything else via JSON.stringify. -/
def valueStringForm : JsValue → String
  | JsValue.vNull => ""
  | JsValue.vUndefined => ""
  | JsValue.vStr s => s
  | JsValue.vNum n => toString n
  | JsValue.vBool b => cond b "true" "false"
  | JsValue.vObj j => jsonStringify j

/-- Single-character containment test, modelling s.includes(c) for a
one-character needle (String.contains is not kernel-reducible, so the model
tests membership over the character list directly). -/
def strContainsChar (s : String) (c : Char) : Bool :=
  s.data.contains c

/-- The characters that are metacharacters in a JavaScript regular
expression; a single-character RegExp source built from one of these does not
match that character literally (some throw at construction, some match a
position or an arbitrary character instead). -/
def regexMetachars : List Char :=
  ['\\', '^', '$', '.', '*', '+', '?', '(', ')', '[', ']', '\x7b', '\x7d', '|']

/-- Single-character RegExp sources whose construction throws a SyntaxError:
a trailing backslash, an unmatched group or class opener/closer, or a
dangling quantifier.  (A lone ']', '\x7b' or '\x7d' is tolerated and matches
itself, so those are not here although they are regex metacharacters.) -/
def regexSyntaxErrorChars : List Char :=
  ['\\', '(', ')', '[', '*', '+', '?']

/-- Replaces every occurrence of the character c in s by rep. -/
def replaceCharBy (c : Char) (rep : String) (s : String) : String :=
  String.mk (s.data.foldr (fun ch acc => if ch = c then rep.data ++ acc else ch :: acc) [])

/-- Interpretation of the replacement string of a JavaScript replace: the
pair "$$" denotes one literal dollar sign.  The formatter's replacement is
the doubled quote, which contains a dollar exactly when the quote is '$'. -/
def replacementInterp (rep : String) : String :=
  if rep = "$$" then "$" else rep

/-- The result of inserting rep at every inter-character position of s and
at both ends, as the global empty-matching pattern '|' does. -/
def interleaveRep (rep : String) (s : String) : String :=
  rep ++ String.mk (s.data.foldr (fun ch acc => ch :: (rep.data ++ acc)) [])

/-- Models the JavaScript call s.replace(new RegExp(String(c), 'g'), rep) for
a single-character pattern, including its failure: for a pattern whose
RegExp construction throws a SyntaxError the result is none (the source
throws there).  The pattern '.' matches every character except the line
terminators; '^' matches once at the start, '$' once at the end, '|' the
empty string at every position; every other single character — including the
tolerated ']', '\x7b' and '\x7d' — matches itself literally. -/
def jsGlobalReplaceChar (c : Char) (rep : String) (s : String) : Option String :=
  if c ∈ regexSyntaxErrorChars then none
  else if c = '.' then
    some (String.mk (s.data.foldr
      (fun ch acc =>
        if ch = '\n' ∨ ch = '\r' ∨ ch = '\u2028' ∨ ch = '\u2029' then ch :: acc
        else (replacementInterp rep).data ++ acc) []))
  else if c = '^' then some (replacementInterp rep ++ s)
  else if c = '$' then some (s ++ replacementInterp rep)
  else if c = '|' then some (interleaveRep (replacementInterp rep) s)
  else some (replaceCharBy c (replacementInterp rep) s)

/-- CsvFormatter.formatValue: null and undefined become the empty field;
otherwise the string form is quote-wrapped (with the quote doubled via a
global RegExp replace) when it contains the delimiter, a newline, a carriage
return, or the quote character, else emitted verbatim.  The delimiter and
quote are single characters, as enforced by CsvWriter.validate.  The result
is none when the escape's RegExp construction throws (a SyntaxError the
callers catch or propagate). -/
def formatValue (delim quote : Char) (v : JsValue) : Option String :=
  match v with
  | JsValue.vNull => some ""
  | JsValue.vUndefined => some ""
  | _ =>
    let stringValue := valueStringForm v
    if strContainsChar stringValue delim ∨ strContainsChar stringValue '\n' ∨
        strContainsChar stringValue '\r' ∨ strContainsChar stringValue quote then
      match jsGlobalReplaceChar quote
          (String.singleton quote ++ String.singleton quote) stringValue with
      | none => none
      | some escaped =>
        some (String.singleton quote ++ escaped ++ String.singleton quote)
    else some stringValue

/-- Collects a list of optional values; none as soon as any element is none,
as a throw inside a JavaScript map aborts the whole map. -/
def optionAll {α : Type} : List (Option α) → Option (List α)
  | [] => some []
  | none :: _ => none
  | some x :: rest =>
    match optionAll rest with
    | none => none
    | some xs => some (x :: xs)

/-- CsvFormatter.formatRow: formatted values joined by the delimiter; none
when formatting any value throws. -/
def formatRow (delim quote : Char) (values : List JsValue) : Option String :=
  match optionAll (values.map (formatValue delim quote)) with
  | none => none
  | some cells => some (joinSep (String.singleton delim) cells)

/-- The row string formatRow returns when no value's escape throws. -/
def formatRowStr (delim quote : Char) (values : List JsValue) : String :=
  joinSep (String.singleton delim)
    (values.map (fun v => (formatValue delim quote v).getD ""))

/-- Insignificant whitespace accepted by the JSON grammar (JSON.parse). -/
def isJsonWsChar (c : Char) : Bool :=
  c == ' ' || c == '\t' || c == '\n' || c == '\r'

/-- Drops leading JSON whitespace. -/
def skipJsonWs : List Char → List Char
  | [] => []
  | c :: rest => if isJsonWsChar c then skipJsonWs rest else c :: rest

/-- Value of a hexadecimal digit, if any. -/
def hexVal (c : Char) : Option Nat :=
  if '0' ≤ c ∧ c ≤ '9' then some (c.toNat - 48)
  else if 'a' ≤ c ∧ c ≤ 'f' then some (c.toNat - 87)
  else if 'A' ≤ c ∧ c ≤ 'F' then some (c.toNat - 55)
  else none

/-- Parses the body of a JSON string literal (after the opening quote),
accumulating characters in reverse; handles the JSON escape forms.  Lone
surrogate halves of a \u escape are outside the model. -/
def parseStringGo (acc : List Char) : List Char → Option (String × List Char)
  | [] => none
  | '"' :: rest => some (String.mk acc.reverse, rest)
  | '\\' :: '"' :: r => parseStringGo ('"' :: acc) r
  | '\\' :: '\\' :: r => parseStringGo ('\\' :: acc) r
  | '\\' :: '/' :: r => parseStringGo ('/' :: acc) r
  | '\\' :: 'b' :: r => parseStringGo ('\x08' :: acc) r
  | '\\' :: 'f' :: r => parseStringGo ('\x0c' :: acc) r
  | '\\' :: 'n' :: r => parseStringGo ('\n' :: acc) r
  | '\\' :: 'r' :: r => parseStringGo ('\r' :: acc) r
  | '\\' :: 't' :: r => parseStringGo ('\t' :: acc) r
  | '\\' :: 'u' :: h1 :: h2 :: h3 :: h4 :: r =>
    match hexVal h1, hexVal h2, hexVal h3, hexVal h4 with
    | some a, some b, some c, some d =>
        parseStringGo (Char.ofNat (((a * 16 + b) * 16 + c) * 16 + d) :: acc) r
    | _, _, _, _ => none
  | '\\' :: _ => none
  | c :: rest => if c.toNat < 0x20 then none else parseStringGo (c :: acc) rest

/-- Splits off a maximal run of decimal digits. -/
def spanDigits : List Char → List Char × List Char
  | [] => ([], [])
  | c :: rest =>
    if c.isDigit then
      let p := spanDigits rest
      (c :: p.1, p.2)
    else ([], c :: rest)

/-- Numeric value of a digit run. -/
def digitsVal (ds : List Char) : Nat :=
  ds.foldl (fun a c => a * 10 + (c.toNat - 48)) 0

/-- Parses a JSON number.  The model is restricted to the integer forms of
the JSON number grammar (fraction and exponent parts, which produce IEEE-754
doubles, are outside the model and rejected). -/
def parseJsonNumber (cs : List Char) : Option (Json × List Char) :=
  let p := match cs with
    | '-' :: r => (true, r)
    | _ => (false, cs)
  let q := spanDigits p.2
  if q.1.isEmpty then none
  else if q.1.length > 1 ∧ q.1.headD ' ' = '0' then none
  else
    match q.2 with
    | '.' :: _ => none
    | 'e' :: _ => none
    | 'E' :: _ => none
    | _ =>
      some (Json.jnum (if p.1 then -(digitsVal q.1 : Int) else (digitsVal q.1 : Int)), q.2)

mutual
/-- Fueled recursive-descent parser for a JSON value, modelling JSON.parse on
the modelled grammar. -/
def parseJsonValue : Nat → List Char → Option (Json × List Char)
  | 0, _ => none
  | fuel + 1, cs =>
    match skipJsonWs cs with
    | 'n' :: 'u' :: 'l' :: 'l' :: rest => some (Json.jnull, rest)
    | 't' :: 'r' :: 'u' :: 'e' :: rest => some (Json.jbool true, rest)
    | 'f' :: 'a' :: 'l' :: 's' :: 'e' :: rest => some (Json.jbool false, rest)
    | '"' :: rest =>
      match parseStringGo [] rest with
      | some (s, r) => some (Json.jstr s, r)
      | none => none
    | '[' :: rest =>
      match skipJsonWs rest with
      | ']' :: r => some (Json.jarr JsonList.nil, r)
      | cs2 =>
        match parseJsonElems fuel cs2 with
        | some (l, r) => some (Json.jarr l, r)
        | none => none
    | '\x7b' :: rest =>
      match skipJsonWs rest with
      | '\x7d' :: r => some (Json.jobj JsonMembers.nil, r)
      | cs2 =>
        match parseJsonMembers fuel cs2 with
        | some (m, r) => some (Json.jobj m, r)
        | none => none
    | cs1 => parseJsonNumber cs1

/-- Parses the elements of a non-empty JSON array up to the closing
bracket. -/
def parseJsonElems : Nat → List Char → Option (JsonList × List Char)
  | 0, _ => none
  | fuel + 1, cs =>
    match parseJsonValue fuel cs with
    | none => none
    | some (v, cs1) =>
      match skipJsonWs cs1 with
      | ',' :: cs2 =>
        match parseJsonElems fuel cs2 with
        | some (l, r) => some (JsonList.cons v l, r)
        | none => none
      | ']' :: cs2 => some (JsonList.cons v JsonList.nil, cs2)
      | _ => none

/-- Parses the members of a non-empty JSON object up to the closing brace. -/
def parseJsonMembers : Nat → List Char → Option (JsonMembers × List Char)
  | 0, _ => none
  | fuel + 1, cs =>
    match skipJsonWs cs with
    | '"' :: rest =>
      match parseStringGo [] rest with
      | none => none
      | some (k, cs1) =>
        match skipJsonWs cs1 with
        | ':' :: cs2 =>
          match parseJsonValue fuel cs2 with
          | none => none
          | some (v, cs3) =>
            match skipJsonWs cs3 with
            | ',' :: cs4 =>
              match parseJsonMembers fuel cs4 with
              | some (m, r) => some (JsonMembers.cons k v m, r)
              | none => none
            | '\x7d' :: cs4 => some (JsonMembers.cons k v JsonMembers.nil, cs4)
            | _ => none
        | _ => none
    | _ => none
end

/-- JSON.parse over the modelled grammar: a single value with only JSON
whitespace around it; anything else is a parse failure. -/
def jsonParse (s : String) : Option Json :=
  match parseJsonValue (2 * s.length + 8) s.data with
  | some (j, rest) => if skipJsonWs rest = [] then some j else none
  | none => none

/-- A record: the ordered own string-keyed fields of a TypeScript object, in
the object's own key-enumeration order. -/
abbrev RecordJs := List (String × JsValue)

/-- Object.keys: the record's keys in enumeration order. -/
def recKeys (r : RecordJs) : List String := r.map Prod.fst

/-- Property access data[key]: the binding of the key, or undefined when the
key is absent. -/
def recGet (r : RecordJs) (k : String) : JsValue :=
  match r.find? (fun p => p.1 == k) with
  | some p => p.2
  | none => JsValue.vUndefined

/-- CsvConfig (src/types.ts): the CSV-specific options consumed by
CsvHeaderManager; none models an absent field.  A present empty list is
truthy in the source's JavaScript tests, and the model preserves that. -/
structure CsvConfigM where
  headers : Option (List String)
  includeKeys : Option (List String)
  columnMapping : Option (List (String × String))

/-- The configuration with no CSV options set. -/
def emptyCsvConfig : CsvConfigM :=
  { headers := none, includeKeys := none, columnMapping := none }

/-- Lookup in the columnMapping record: mapping[key]. -/
def mappingLookup (m : List (String × String)) (k : String) : Option String :=
  (m.find? (fun p => p.1 == k)).map Prod.snd

/-- Mutable state of a CsvHeaderManager: the headers and keys fields, null
until resolved. -/
structure HMState where
  headersOpt : Option (List String)
  keysOpt : Option (List String)
  deriving DecidableEq, Repr

/-- State of a freshly constructed CsvHeaderManager. -/
def hmFresh : HMState := { headersOpt := none, keysOpt := none }

/-- CsvHeaderManager.isInitialized: both fields resolved. -/
def hmIsInitialized (st : HMState) : Bool :=
  st.headersOpt.isSome && st.keysOpt.isSome

/-- CsvHeaderManager.initialize: no-op success when already resolved;
otherwise keys come from includeKeys when configured (even an empty list),
else from Object.keys of the sample record — the source's redundant middle
branch for a non-empty explicit headers list also takes Object.keys, so the
two branches coincide.  The keys field is assigned before the emptiness
check, so a failing call still stores the empty key list.  Headers come from
the explicit headers list when configured (even an empty one), else from the
column mapping with fallback to the key, else from the keys themselves. -/
def hmKeys1 (cfg : CsvConfigM) (firstDataObject : RecordJs) : List String :=
  match cfg.includeKeys with
  | some ks => ks
  | none => recKeys firstDataObject

/-- The header labels initialize resolves, given the resolved keys: the
explicit headers list verbatim when configured (even an empty one), else the
column mapping with fallback to the raw key, else the keys themselves. -/
def hmHeaders1 (cfg : CsvConfigM) (keys1 : List String) : List String :=
  match cfg.headers with
  | some hs => hs
  | none =>
    match cfg.columnMapping with
    | some m => keys1.map (fun k => (mappingLookup m k).getD k)
    | none => keys1

def hmInitialize (cfg : CsvConfigM) (st : HMState) (firstDataObject : RecordJs) :
    WResult Unit × HMState :=
  if st.headersOpt ≠ none ∧ st.keysOpt ≠ none then (Except.ok (), st)
  else if (hmKeys1 cfg firstDataObject).length = 0 then
    (Except.error (WriterError.headerInitializationError
        "Cannot determine headers from empty object"),
      { st with keysOpt := some (hmKeys1 cfg firstDataObject) })
  else
    (Except.ok (),
      { headersOpt := some (hmHeaders1 cfg (hmKeys1 cfg firstDataObject)),
        keysOpt := some (hmKeys1 cfg firstDataObject) })

/-- CsvHeaderManager.getHeaders: throws HeaderInitializationError before
resolution (modelled as the error side of the result). -/
def hmGetHeaders (st : HMState) : WResult (List String) :=
  match st.headersOpt with
  | none => Except.error (WriterError.headerInitializationError "Headers not initialized")
  | some h => Except.ok h

/-- CsvHeaderManager.getKeys: throws HeaderInitializationError when the keys
field is still null. -/
def hmGetKeys (st : HMState) : WResult (List String) :=
  match st.keysOpt with
  | none => Except.error (WriterError.headerInitializationError "Keys not initialized")
  | some k => Except.ok k

/-- CsvHeaderManager.objectToValues: the record's values in key order,
undefined for missing keys; propagates getKeys' throw. -/
def hmObjectToValues (st : HMState) (data : RecordJs) : WResult (List JsValue) :=
  match hmGetKeys st with
  | Except.error e => Except.error e
  | Except.ok ks => Except.ok (ks.map (recGet data))

/-- Write mode of a writer. -/
inductive WMode where
  | write
  | append
  deriving DecidableEq, Repr

/-- Validated configuration of a CsvWriter: the mode, the single-character
delimiter and quote (CsvWriter.validate guarantees length one), the BOM flag,
and the header-manager options. -/
structure CsvWriterCfg where
  mode : WMode
  delim : Char
  quote : Char
  includeUtf8Bom : Bool
  csvConfig : CsvConfigM

/-- The UTF-8 BOM prefix when configured. -/
def bomStr (b : Bool) : String := if b then "\uFEFF" else ""

/-- The header content CsvWriter.writeHeadersSync builds: optional BOM, the
formatted header row, a newline; none when formatting a header label throws
(writeHeadersSync has no catch, so the callers let that exception
escape). -/
def csvHeaderContent (cfg : CsvWriterCfg) (hs : List String) : Option String :=
  match formatRow cfg.delim cfg.quote (hs.map JsValue.vStr) with
  | none => none
  | some line => some (bomStr cfg.includeUtf8Bom ++ line ++ "\n")

/-- The header content when no header label's escape throws. -/
def csvHeaderContentStr (cfg : CsvWriterCfg) (hs : List String) : String :=
  bomStr cfg.includeUtf8Bom ++
    formatRowStr cfg.delim cfg.quote (hs.map JsValue.vStr) ++ "\n"

/-- CsvWriter.writeHeadersSync / writeHeaders: in write mode overwrite the
file with the header content; in append mode create the file with the header
content only when it does not exist.  The file is modelled as an optional
string (none: the file does not exist).  A header-formatting throw escapes
uncaught (modelled as uncaughtException) with the file untouched. -/
def csvWriteHeaders (cfg : CsvWriterCfg) (st : HMState) (file : Option String) :
    WResult Unit × Option String :=
  match hmGetHeaders st with
  | Except.error e => (Except.error e, file)
  | Except.ok hs =>
    match csvHeaderContent cfg hs with
    | none =>
      (Except.error (WriterError.uncaughtException "Invalid regular expression"), file)
    | some content =>
      match cfg.mode with
      | WMode.write => (Except.ok (), some content)
      | WMode.append =>
        match file with
        | none => (Except.ok (), some content)
        | some s => (Except.ok (), some s)

/-- The block of data lines one writeRows call appends when every row
formats: rows joined by newlines, with one trailing newline. -/
def csvRowsBlock (cfg : CsvWriterCfg) (ks : List String) (data : List RecordJs) : String :=
  joinSep "\n"
    (data.map (fun r =>
      (formatRow cfg.delim cfg.quote (ks.map (recGet r))).getD "")) ++ "\n"

/-- CsvWriter.writeRowsSync / writeRows: formats each record via
objectToValues and formatRow and appends the block to the file (creating it
when absent); a throw from objectToValues or from the escape's RegExp
construction is caught before anything is appended and wrapped as a
CsvFormattingError (its message is the thrown error's message; the model
carries a fixed form of the SyntaxError message). -/
def csvWriteRows (cfg : CsvWriterCfg) (st : HMState) (file : Option String)
    (data : List RecordJs) : WResult Unit × Option String :=
  match hmGetKeys st with
  | Except.error _ =>
    (Except.error (WriterError.csvFormattingError "Keys not initialized"), file)
  | Except.ok ks =>
    match optionAll
        (data.map (fun r => formatRow cfg.delim cfg.quote (ks.map (recGet r)))) with
    | none =>
      (Except.error (WriterError.csvFormattingError "Invalid regular expression"), file)
    | some rows =>
      (Except.ok (), some (file.getD "" ++ (joinSep "\n" rows ++ "\n")))

/-- CsvWriter.writeSync and write (src/src/writers/csv/CsvWriter.ts lines
141-190; the async path repeats the sync logic): reject empty input; when
the header manager is uninitialized, initialize from the first record and
write the headers; then append the formatted rows. -/
def csvWriteSync (cfg : CsvWriterCfg) (st : HMState) (file : Option String)
    (data : List RecordJs) : WResult Unit × HMState × Option String :=
  if data.length = 0 then
    (Except.error (WriterError.validationError "Cannot write empty data array"), st, file)
  else if hmIsInitialized st then
    let p := csvWriteRows cfg st file data
    (p.1, st, p.2)
  else
    match hmInitialize cfg.csvConfig st (data.headD []) with
    | (Except.error e, st1) => (Except.error e, st1, file)
    | (Except.ok _, st1) =>
      match csvWriteHeaders cfg st1 file with
      | (Except.error e, file1) => (Except.error e, st1, file1)
      | (Except.ok _, file1) =>
        let p := csvWriteRows cfg st1 file1 data
        (p.1, st1, p.2)

/-- CsvWriter.appendSync and append (lines 195-242), after the lone-record
normalization: an empty batch is a no-op success; headers are initialized and
written only on the first effective call; then the rows are appended. -/
def csvAppendSync (cfg : CsvWriterCfg) (st : HMState) (file : Option String)
    (data : List RecordJs) : WResult Unit × HMState × Option String :=
  if data.length = 0 then (Except.ok (), st, file)
  else if hmIsInitialized st then
    let p := csvWriteRows cfg st file data
    (p.1, st, p.2)
  else
    match hmInitialize cfg.csvConfig st (data.headD []) with
    | (Except.error e, st1) => (Except.error e, st1, file)
    | (Except.ok _, st1) =>
      match csvWriteHeaders cfg st1 file with
      | (Except.error e, file1) => (Except.error e, st1, file1)
      | (Except.ok _, file1) =>
        let p := csvWriteRows cfg st1 file1 data
        (p.1, st1, p.2)

/-- Validated configuration of a JsonWriter. -/
structure JsonWriterCfg where
  mode : WMode
  prettyPrint : Bool
  indent : Nat
  includeUtf8Bom : Bool

/-- Mutable state of a JsonWriter: the in-memory mirror and the
isInitialized flag. -/
structure JsonWriterState where
  dataArray : List Json
  isInit : Bool

/-- State of a freshly constructed JsonWriter. -/
def jsonFresh : JsonWriterState := { dataArray := [], isInit := false }

/-- Strips one leading UTF-8 BOM, modelling content.replace of one leading U+FEFF. -/
def stripLeadingBom (s : String) : String :=
  match s.data with
  | '\uFEFF' :: rest => String.mk rest
  | _ => s

/-- JavaScript whitespace as removed by String.prototype.trim (the common
code points; the remaining exotic Unicode spaces are outside the model). -/
def isJsWhitespace (c : Char) : Bool :=
  c == ' ' || c == '\t' || c == '\n' || c == '\r' || c == '\x0b' || c == '\x0c' ||
    c == '\u00a0' || c == '\uFEFF' || c == '\u2028' || c == '\u2029'

/-- Truthiness of cleanContent.trim(): some non-whitespace character
remains. -/
def jsTrimmedNonempty (s : String) : Bool :=
  s.data.any (fun c => !(isJsWhitespace c))

/-- JsonWriter.loadExistingDataSync / loadExistingData (lines 192-242): in
append mode with an existing file, strip one leading BOM, and when the
remainder is not blank parse it — an array replaces the mirror, any other
value becomes a single-element array, a parse failure becomes a
JsonFormattingError; otherwise the mirror is left unchanged. -/
def jsonLoadExisting (cfg : JsonWriterCfg) (file : Option String)
    (dataArray : List Json) : WResult (List Json) :=
  match cfg.mode, file with
  | WMode.append, some content =>
    let cleanContent := stripLeadingBom content
    if jsTrimmedNonempty cleanContent then
      match jsonParse cleanContent with
      | some (Json.jarr l) => Except.ok (ofJsonList l)
      | some j => Except.ok [j]
      | none =>
        Except.error (WriterError.jsonFormattingError "Failed to parse existing JSON file")
    else Except.ok dataArray
  | _, _ => Except.ok dataArray

/-- JsonWriter.writeDataSync / writeData: the persisted file content —
optional BOM plus the formatted full array. -/
def jsonWriteData (cfg : JsonWriterCfg) (dataArray : List Json) : String :=
  bomStr cfg.includeUtf8Bom ++ jsonFormatArray cfg.prettyPrint cfg.indent dataArray

/-- JsonWriter.writeSync and write (lines 307-380): reject empty input; in
write mode replace the mirror with the records and persist; in append mode
lazily load the existing content once, concatenate, persist. -/
def jsonWrite (cfg : JsonWriterCfg) (st : JsonWriterState) (file : Option String)
    (data : List Json) : WResult Unit × JsonWriterState × Option String :=
  if data.length = 0 then
    (Except.error (WriterError.validationError "Cannot write empty data array"), st, file)
  else
    match cfg.mode with
    | WMode.write =>
      let st1 : JsonWriterState := { dataArray := data, isInit := true }
      (Except.ok (), st1, some (jsonWriteData cfg st1.dataArray))
    | WMode.append =>
      if st.isInit then
        let st1 : JsonWriterState := { st with dataArray := st.dataArray ++ data }
        (Except.ok (), st1, some (jsonWriteData cfg st1.dataArray))
      else
        match jsonLoadExisting cfg file st.dataArray with
        | Except.error e => (Except.error e, st, file)
        | Except.ok l =>
          let st1 : JsonWriterState := { dataArray := l ++ data, isInit := true }
          (Except.ok (), st1, some (jsonWriteData cfg st1.dataArray))

/-- JsonWriter.appendSync and append (lines 406-463), after the lone-record
normalization: an empty batch is a no-op success; the existing content is
loaded lazily once (loadExistingData itself checks for append mode), then
the records are pushed and the full array persisted. -/
def jsonAppend (cfg : JsonWriterCfg) (st : JsonWriterState) (file : Option String)
    (data : List Json) : WResult Unit × JsonWriterState × Option String :=
  if data.length = 0 then (Except.ok (), st, file)
  else if st.isInit then
    let st1 : JsonWriterState := { st with dataArray := st.dataArray ++ data }
    (Except.ok (), st1, some (jsonWriteData cfg st1.dataArray))
  else
    match jsonLoadExisting cfg file st.dataArray with
    | Except.error e => (Except.error e, st, file)
    | Except.ok l =>
      let st1 : JsonWriterState := { dataArray := l ++ data, isInit := true }
      (Except.ok (), st1, some (jsonWriteData cfg st1.dataArray))

/-- The loop body of BatchProcessor.process: accumulate each item into the
buffer, dispatch the buffer as a batch (with a 1-based batch number) when it
reaches the batch size, and flush a final partial batch on exhaustion.
Returns the dispatched (batchNumber, batch) pairs in dispatch order and the
returned totalProcessed. -/
def processLoop (batchSize : Nat) (buf : List α) (total batchNum : Nat)
    (dispatched : List (Nat × List α)) : List α → List (Nat × List α) × Nat
  | [] =>
    if buf.length > 0 then (dispatched ++ [(batchNum + 1, buf)], total + buf.length)
    else (dispatched, total)
  | x :: rest =>
    let buf2 := buf ++ [x]
    if batchSize ≤ buf2.length then
      processLoop batchSize [] (total + buf2.length) (batchNum + 1)
        (dispatched ++ [(batchNum + 1, buf2)]) rest
    else processLoop batchSize buf2 total batchNum dispatched rest

/-- BatchProcessor.process over a finite source. -/
def process (batchSize : Nat) (source : List α) : List (Nat × List α) × Nat :=
  processLoop batchSize [] 0 0 [] source

/-- The loop body of BatchProcessor.collectLimit: push each pulled item,
count it, and break once the count reaches the limit.  Returns the collected
items and the part of the source never pulled. -/
def collectLimitGo (limit : Nat) (items : List α) (count : Nat) :
    List α → List α × List α
  | [] => (items, [])
  | x :: rest =>
    let items2 := items ++ [x]
    if limit ≤ count + 1 then (items2, rest)
    else collectLimitGo limit items2 (count + 1) rest

/-- BatchProcessor.collectLimit over a finite source: collected items paired
with the unconsumed remainder of the source. -/
def collectLimit (source : List α) (limit : Nat) : List α × List α :=
  collectLimitGo limit [] 0 source

/-- The batch handler loop of StreamingWriter.stream: the first batch goes
through the writer's write, later batches through append; a failed result is
thrown, aborting the stream (the state reached so far is kept). -/
def streamBatches {σ ρ : Type} (writeF appendF : σ → List ρ → WResult Unit × σ) :
    Bool → σ → List (List ρ) → WResult Unit × σ
  | _, s, [] => (Except.ok (), s)
  | isFirst, s, batch :: rest =>
    let p := cond isFirst (writeF s batch) (appendF s batch)
    match p.1 with
    | Except.error e => (Except.error e, p.2)
    | Except.ok _ => streamBatches writeF appendF false p.2 rest

/-- The stream handler's write-path step over a CsvWriter, on the combined
writer-and-file state. -/
def csvStepW (cfg : CsvWriterCfg) (q : HMState × Option String)
    (batch : List RecordJs) : WResult Unit × (HMState × Option String) :=
  let t := csvWriteSync cfg q.1 q.2 batch
  (t.1, (t.2.1, t.2.2))

/-- The stream handler's append-path step over a CsvWriter. -/
def csvStepA (cfg : CsvWriterCfg) (q : HMState × Option String)
    (batch : List RecordJs) : WResult Unit × (HMState × Option String) :=
  let t := csvAppendSync cfg q.1 q.2 batch
  (t.1, (t.2.1, t.2.2))

/-- StreamingWriter.stream over a CsvWriter: the batches dispatched by
BatchProcessor.process, first through write, then through append. -/
def streamCsv (cfg : CsvWriterCfg) (b : Nat) (st : HMState) (file : Option String)
    (src : List RecordJs) : WResult Unit × HMState × Option String :=
  let batches := (process b src).1.map Prod.snd
  let p := streamBatches (csvStepW cfg) (csvStepA cfg) true (st, file) batches
  (p.1, p.2.1, p.2.2)

/-- The stream handler's write-path step over a JsonWriter. -/
def jsonStepW (cfg : JsonWriterCfg) (q : JsonWriterState × Option String)
    (batch : List Json) : WResult Unit × (JsonWriterState × Option String) :=
  let t := jsonWrite cfg q.1 q.2 batch
  (t.1, (t.2.1, t.2.2))

/-- The stream handler's append-path step over a JsonWriter. -/
def jsonStepA (cfg : JsonWriterCfg) (q : JsonWriterState × Option String)
    (batch : List Json) : WResult Unit × (JsonWriterState × Option String) :=
  let t := jsonAppend cfg q.1 q.2 batch
  (t.1, (t.2.1, t.2.2))

/-- StreamingWriter.stream over a JsonWriter. -/
def streamJson (cfg : JsonWriterCfg) (b : Nat) (st : JsonWriterState)
    (file : Option String) (src : List Json) :
    WResult Unit × JsonWriterState × Option String :=
  let batches := (process b src).1.map Prod.snd
  let p := streamBatches (jsonStepW cfg) (jsonStepA cfg) true (st, file) batches
  (p.1, p.2.1, p.2.2)

/-- The file content present after the header step of a first CSV write,
given the built header content: in write mode that content (overwrite); in
append mode the existing content, or the header content when the file did
not exist. -/
def headerFileContent (cfg : CsvWriterCfg) (content : String)
    (file : Option String) : String :=
  match cfg.mode with
  | WMode.write => content
  | WMode.append =>
    match file with
    | none => content
    | some s => s

/-- Concatenation of a list of strings, in order. -/
def concatAll : List String → String
  | [] => ""
  | x :: rest => x ++ concatAll rest

/-- The raw constructor options validate inspects: the discriminating type
tag, the file path, and the unvalidated option fields relevant to
validation. -/
structure RawWriterOptions where
  typeTag : String
  file : String
  csvDelimiter : Option String
  csvQuote : Option String
  jsonIndent : Option Int

/-- String.prototype.endsWith: the suffix test used by validate. -/
def strEndsWith (s suffix : String) : Bool :=
  suffix.data.isSuffixOf s.data

/-- CsvWriter.validate (src/src/writers/csv/CsvWriter.ts lines 37-59; the
discriminated-union variant repeats the same checks): type tag, non-empty
path, .csv extension, single-character delimiter and quote, in that order;
any violation throws a ValidationError at construction time. -/
def csvValidate (o : RawWriterOptions) : WResult Unit :=
  if o.typeTag ≠ "csv" then
    Except.error (WriterError.validationError "Invalid writer type for CsvWriter")
  else if o.file.length = 0 then
    Except.error (WriterError.validationError "File path must be provided for CsvWriter")
  else if ¬ strEndsWith o.file ".csv" then
    Except.error (WriterError.validationError "File extension must be .csv for CsvWriter")
  else if (o.csvDelimiter.getD ",").length ≠ 1 then
    Except.error (WriterError.validationError "Delimiter must be a single character")
  else if (o.csvQuote.getD "\"").length ≠ 1 then
    Except.error (WriterError.validationError "Quote character must be a single character")
  else Except.ok ()

/-- JsonWriter.validate (src/src/writers/json/JsonFormatter.ts bundle, lines
170-187): type tag, non-empty path, .json extension, indent in 0..10. -/
def jsonValidate (o : RawWriterOptions) : WResult Unit :=
  if o.typeTag ≠ "json" then
    Except.error (WriterError.validationError "Invalid writer type for JsonWriter")
  else if o.file.length = 0 then
    Except.error (WriterError.validationError "File path must be provided for JsonWriter")
  else if ¬ strEndsWith o.file ".json" then
    Except.error (WriterError.validationError "File extension must be .json for JsonWriter")
  else if (o.jsonIndent.getD 2) < 0 ∨ (o.jsonIndent.getD 2) > 10 then
    Except.error (WriterError.validationError "Indent must be between 0 and 10")
  else Except.ok ()

/-! Helper notions for reasoning about process: the batches it dispatches are
the chunks of the source, numbered consecutively from 1. -/

/-- The chunks the process loop dispatches, starting from a given buffer:
a batch is cut as soon as the buffer reaches the batch size, and a final
non-empty partial buffer is flushed. -/
def chunksAux (b : Nat) (buf : List α) : List α → List (List α)
  | [] => if 0 < buf.length then [buf] else []
  | x :: rest =>
    let buf2 := buf ++ [x]
    if b ≤ buf2.length then buf2 :: chunksAux b [] rest
    else chunksAux b buf2 rest

/-- Pairs each list with consecutive numbers starting from s. -/
def numberFrom (s : Nat) : List (List α) → List (Nat × List α)
  | [] => []
  | c :: cs => (s, c) :: numberFrom (s + 1) cs

/-- A CSV writer configuration with all defaults (comma delimiter, double
quote, no BOM, no explicit headers or keys), as the constructor builds from
an options object with no csvConfig. -/
def csvCfgPlain (mode : WMode) : CsvWriterCfg :=
  { mode := mode, delim := ',', quote := '"', includeUtf8Bom := false,
    csvConfig := emptyCsvConfig }

/-- A JSON writer configuration with compact output and no BOM. -/
def jsonCfgPlain (mode : WMode) : JsonWriterCfg :=
  { mode := mode, prettyPrint := false, indent := 2, includeUtf8Bom := false }

/-- A CSV configuration with an explicit empty headers list and nothing
else. -/
def emptyHeadersCsvConfig : CsvConfigM :=
  { headers := some [], includeKeys := none, columnMapping := none }

/-- The writer state and file after a first write-mode writeSync of one
id-1 record on a fresh default CsvWriter. -/
def c2FirstWrite : WResult Unit × HMState × Option String :=
  csvWriteSync (csvCfgPlain WMode.write) hmFresh none [[("id", JsValue.vNum 1)]]

/-- The file content after a second write-mode writeSync of one id-2 record
on the same writer. -/
def c2FileAfterTwoWrites : Option String :=
  (csvWriteSync (csvCfgPlain WMode.write) c2FirstWrite.2.1 c2FirstWrite.2.2
    [[("id", JsValue.vNum 2)]]).2.2

/-- A write-mode CSV configuration whose quote character is an opening
parenthesis: new RegExp(quote, flags) throws a SyntaxError for it. -/
def c1ParenCfg : CsvWriterCfg :=
  { mode := WMode.write, delim := ',', quote := '(', includeUtf8Bom := false,
    csvConfig := emptyCsvConfig }

/-- Two single-field records; the second value contains the quote character,
so escaping it constructs the throwing RegExp. -/
def c1ParenRecords : List RecordJs :=
  [[("a", JsValue.vStr "x")], [("a", JsValue.vStr "(")]]

theorem numberFrom_map_fst (s : Nat) (ls : List (List α)) :
    (numberFrom s ls).map Prod.fst = List.range' s ls.length := by
  induction ls generalizing s with
  | nil => simp [numberFrom]
  | cons c cs ih => simp [numberFrom, List.range'_succ, ih]

theorem numberFrom_map_snd (s : Nat) (ls : List (List α)) :
    (numberFrom s ls).map Prod.snd = ls := by
  induction ls generalizing s with
  | nil => simp [numberFrom]
  | cons c cs ih => simp [numberFrom, ih]

theorem processLoop_eq (b : Nat) (src : List α) :
    ∀ (buf : List α) (total k : Nat) (disp : List (Nat × List α)),
      processLoop b buf total k disp src =
        (disp ++ numberFrom (k + 1) (chunksAux b buf src),
          total + buf.length + src.length) := by
  induction src with
  | nil =>
    intro buf total k disp
    simp only [processLoop, chunksAux]
    split
    · simp [numberFrom]
    · simp only [numberFrom, List.append_nil]
      have : buf.length = 0 := by omega
      simp [this]
  | cons x rest ih =>
    intro buf total k disp
    simp only [processLoop, chunksAux]
    by_cases h : b ≤ (buf ++ [x]).length
    · simp only [if_pos h]
      rw [ih]
      simp only [numberFrom, List.length_nil, List.length_append,
        List.length_cons, List.append_assoc, List.cons_append, List.nil_append,
        Prod.mk.injEq]
      exact ⟨trivial, by omega⟩
    · simp only [if_neg h]
      rw [ih]
      simp only [List.length_append, List.length_cons, List.length_nil, Prod.mk.injEq]
      exact ⟨trivial, by omega⟩

theorem chunksAux_flatten (b : Nat) (src : List α) :
    ∀ buf : List α, (chunksAux b buf src).flatten = buf ++ src := by
  induction src with
  | nil =>
    intro buf
    simp only [chunksAux]
    split
    · simp
    · have : buf.length = 0 := by omega
      simp [List.length_eq_zero.mp this]
  | cons x rest ih =>
    intro buf
    simp only [chunksAux]
    by_cases h : b ≤ (buf ++ [x]).length
    · simp only [List.length_append, List.length_cons, List.length_nil] at h
      simp [h, ih]
    · simp only [List.length_append, List.length_cons, List.length_nil] at h
      simp [h, ih]

theorem chunksAux_length (b : Nat) (hb : 1 ≤ b) (src : List α) :
    ∀ buf : List α, buf.length < b →
      (chunksAux b buf src).length = (buf.length + src.length + b - 1) / b := by
  induction src with
  | nil =>
    intro buf hbuf
    simp only [chunksAux]
    split
    · simp only [List.length_singleton, List.length_nil, Nat.add_zero]
      refine (Nat.div_eq_of_lt_le ?_ ?_).symm <;> omega
    · simp only [List.length_nil]
      have h0 : buf.length = 0 := by omega
      rw [h0]
      exact (Nat.div_eq_of_lt (by omega)).symm
  | cons x rest ih =>
    intro buf hbuf
    simp only [chunksAux]
    by_cases h : b ≤ (buf ++ [x]).length
    · simp only [if_pos h, List.length_cons]
      rw [ih [] (by simp only [List.length_nil]; omega)]
      have hlen : b = buf.length + 1 := by
        simp only [List.length_append, List.length_cons, List.length_nil] at h
        omega
      have harith : buf.length + (rest.length + 1) + b - 1 = rest.length + b - 1 + b := by
        omega
      simp only [List.length_nil, Nat.zero_add, List.length_cons, harith]
      rw [Nat.add_div_right _ (by omega)]
    · simp only [if_neg h]
      rw [ih (buf ++ [x]) (by simp at h ⊢; omega)]
      simp only [List.length_append, List.length_cons, List.length_nil]
      congr 1
      omega

theorem chunksAux_sizes (b : Nat) (hb : 1 ≤ b) (src : List α) :
    ∀ buf : List α, buf.length < b →
      (∀ c ∈ (chunksAux b buf src).dropLast, c.length = b) ∧
      (∀ c ∈ chunksAux b buf src, 1 ≤ c.length ∧ c.length ≤ b) := by
  induction src with
  | nil =>
    intro buf hbuf
    simp only [chunksAux]
    split
    · constructor
      · intro c hc
        simp at hc
      · intro c hc
        simp at hc
        subst hc
        omega
    · simp
  | cons x rest ih =>
    intro buf hbuf
    simp only [chunksAux]
    by_cases h : b ≤ (buf ++ [x]).length
    · simp only [if_pos h]
      have hlen : (buf ++ [x]).length = b := by
        simp at h ⊢
        omega
      obtain ⟨ihd, ihm⟩ := ih [] (by simp only [List.length_nil]; omega)
      constructor
      · intro c hc
        rcases hrest : chunksAux b ([] : List α) rest with _ | ⟨y, ys⟩
        · rw [hrest] at hc
          simp at hc
        · rw [hrest] at hc
          rw [List.dropLast_cons₂] at hc
          rcases List.mem_cons.mp hc with hceq | hctail
          · rw [hceq]
            exact hlen
          · exact ihd c (by rw [hrest]; exact hctail)
      · intro c hc
        rcases List.mem_cons.mp hc with hceq | hctail
        · rw [hceq]
          omega
        · exact ihm c hctail
    · simp only [if_neg h]
      exact ih (buf ++ [x]) (by simp at h ⊢; omega)

theorem numberFrom_dropLast_snd (s : Nat) (ls : List (List α)) :
    (numberFrom s ls).dropLast.map Prod.snd = ls.dropLast := by
  induction ls generalizing s with
  | nil => simp [numberFrom]
  | cons c cs ih =>
    cases cs with
    | nil => simp [numberFrom]
    | cons d ds =>
      simp only [numberFrom, List.dropLast_cons₂, List.map_cons]
      rw [← numberFrom]
      rw [ih (s + 1)]

theorem process_eq_chunks {α : Type} (b : Nat) (src : List α) :
    process b src = (numberFrom 1 (chunksAux b [] src), src.length) := by
  unfold process
  rw [processLoop_eq]
  simp

/-- C3: for every batch size b ≥ 1 and every finite source of n items,
BatchProcessor.process dispatches exactly ceil(n/b) batches, with 1-based
consecutive (hence strictly increasing) batch numbers, every batch except
possibly the last of exactly b items and every batch of between 1 and b
items, the concatenation of the dispatched batches equal to the source in
order, and n as the returned total; an empty source dispatches no batch and
returns 0. -/
theorem c3_process_batching {α : Type} (b : Nat) (hb : 1 ≤ b) (src : List α) :
    (process b src).1.length = (src.length + b - 1) / b ∧
    (process b src).1.map Prod.fst = List.range' 1 (process b src).1.length ∧
    (∀ p ∈ (process b src).1.dropLast, p.2.length = b) ∧
    (∀ p ∈ (process b src).1, 1 ≤ p.2.length ∧ p.2.length ≤ b) ∧
    ((process b src).1.map Prod.snd).flatten = src ∧
    (process b src).2 = src.length ∧
    (src = [] → (process b src).1 = []) := by
  have hC := process_eq_chunks b src
  have hlen : (chunksAux b [] src).length = (src.length + b - 1) / b := by
    have h := chunksAux_length b hb src [] (by simp only [List.length_nil]; omega)
    simpa using h
  have hmapsnd := numberFrom_map_snd 1 (chunksAux b [] src)
  have hmapfst := numberFrom_map_fst 1 (chunksAux b [] src)
  have hnlen : (numberFrom 1 (chunksAux b [] src)).length = (chunksAux b [] src).length := by
    have h := congrArg List.length hmapsnd
    simpa using h
  obtain ⟨hsz1, hsz2⟩ :=
    chunksAux_sizes b hb src [] (by simp only [List.length_nil]; omega)
  refine ⟨?_, ?_, ?_, ?_, ?_, ?_, ?_⟩
  · rw [hC]
    simpa [hnlen] using hlen
  · rw [hC]
    simpa [hnlen] using hmapfst
  · rw [hC]
    intro p hp
    have hmem : p.2 ∈ (chunksAux b [] src).dropLast := by
      have h2 := List.mem_map_of_mem Prod.snd hp
      rwa [numberFrom_dropLast_snd] at h2
    exact hsz1 _ hmem
  · rw [hC]
    intro p hp
    have hmem : p.2 ∈ chunksAux b [] src := by
      have h2 := List.mem_map_of_mem Prod.snd hp
      rwa [hmapsnd] at h2
    exact hsz2 _ hmem
  · rw [hC]
    show ((numberFrom 1 (chunksAux b [] src)).map Prod.snd).flatten = src
    rw [hmapsnd]
    simpa using chunksAux_flatten b src []
  · rw [hC]
  · intro h
    subst h
    rw [hC]
    simp [chunksAux, numberFrom]

/-- Witness for C3 at batch size 2 over a three-item source. -/
theorem c3_process_batching_witness :
    1 ≤ 2 ∧
    ((process 2 [0, 1, 2]).1.length = (([0, 1, 2] : List Nat).length + 2 - 1) / 2 ∧
      (process 2 [0, 1, 2]).1.map Prod.fst = List.range' 1 (process 2 [0, 1, 2]).1.length ∧
      (∀ p ∈ (process 2 [(0 : Nat), 1, 2]).1.dropLast, p.2.length = 2) ∧
      (∀ p ∈ (process 2 [(0 : Nat), 1, 2]).1, 1 ≤ p.2.length ∧ p.2.length ≤ 2) ∧
      ((process 2 [0, 1, 2]).1.map Prod.snd).flatten = [0, 1, 2] ∧
      (process 2 [0, 1, 2]).2 = ([0, 1, 2] : List Nat).length ∧
      (([0, 1, 2] : List Nat) = [] → (process 2 [0, 1, 2]).1 = [])) :=
  ⟨by decide, c3_process_batching 2 (by decide) [0, 1, 2]⟩

theorem collectLimitGo_eq {α : Type} (limit : Nat) (src : List α) :
    ∀ (items : List α) (count : Nat), count < limit →
      collectLimitGo limit items count src =
        (items ++ src.take (limit - count), src.drop (limit - count)) := by
  induction src with
  | nil =>
    intro items count _
    simp [collectLimitGo]
  | cons x rest ih =>
    intro items count hc
    simp only [collectLimitGo]
    by_cases h : limit ≤ count + 1
    · have hlim : limit - count = 1 := by omega
      simp [if_pos h, hlim]
    · have hlim : limit - count = (limit - (count + 1)) + 1 := by omega
      rw [if_neg h, ih (items ++ [x]) (count + 1) (by omega), hlim]
      simp

/-- C8 counterexample: the claim quantifies over every limit ≥ 0, but with
limit 0 and a one-item source collectLimit still pulls and returns that item
(the limit check runs only after an item has been collected), so it returns
more than limit records. -/
theorem c8_limit_zero_counterexample :
    (collectLimit [(0 : Nat)] 0).1.length = 1 ∧
    ¬ (collectLimit [(0 : Nat)] 0).1.length ≤ 0 := by
  decide

/-- C8 (amended): for every limit ≥ 1, collectLimit returns exactly
min(limit, n) records — in particular at most limit — and the returned
records are the consumed prefix of the source, with the remainder never
pulled, so it never consumes more items than it returns; with limit 0 it
still pulls and returns the first item when the source is non-empty. -/
theorem c8_collectLimit_amended {α : Type} (src : List α) (limit : Nat) (hl : 1 ≤ limit) :
    (collectLimit src limit).1.length = min limit src.length ∧
    (collectLimit src limit).1 ++ (collectLimit src limit).2 = src := by
  unfold collectLimit
  rw [collectLimitGo_eq limit src [] 0 (by omega)]
  simp

/-- Witness for C8 at limit 2 over a three-item source. -/
theorem c8_collectLimit_amended_witness :
    1 ≤ 2 ∧
    ((collectLimit [10, 20, 30] 2).1.length = min 2 ([10, 20, 30] : List Nat).length ∧
      (collectLimit [10, 20, 30] 2).1 ++ (collectLimit [10, 20, 30] 2).2 = [10, 20, 30]) :=
  ⟨by decide, c8_collectLimit_amended [10, 20, 30] 2 (by decide)⟩

/-- C9: constructing a CsvWriter on a path not ending in .csv, or a
JsonWriter on a path not ending in .json, always fails the construction-time
validation with a thrown ValidationError (whatever other fields hold); the
delimiter/quote single-character and indent-range checks sit in the same
validators. -/
theorem c9_extension_validation (o p : RawWriterOptions)
    (hcsv : ¬ strEndsWith o.file ".csv") (hjson : ¬ strEndsWith p.file ".json") :
    (∃ m, csvValidate o = Except.error (WriterError.validationError m)) ∧
    (∃ m, jsonValidate p = Except.error (WriterError.validationError m)) := by
  constructor
  · unfold csvValidate
    split_ifs <;> exact ⟨_, rfl⟩
  · unfold jsonValidate
    split_ifs <;> exact ⟨_, rfl⟩

/-- Witness for C9: a .txt path for the CSV writer and a .csv path for the
JSON writer are both rejected. -/
theorem c9_extension_validation_witness :
    ¬ strEndsWith "out.txt" ".csv" ∧
    ¬ strEndsWith "data.csv" ".json" ∧
    ((∃ m, csvValidate ⟨"csv", "out.txt", none, none, none⟩ =
        Except.error (WriterError.validationError m)) ∧
      (∃ m, jsonValidate ⟨"json", "data.csv", none, none, none⟩ =
        Except.error (WriterError.validationError m))) :=
  ⟨by decide, by decide,
    c9_extension_validation ⟨"csv", "out.txt", none, none, none⟩
      ⟨"json", "data.csv", none, none, none⟩ (by decide) (by decide)⟩

theorem hmInitialize_noop_of_initialized (cfg : CsvConfigM) (st : HMState)
    (r : RecordJs) (h1 : st.headersOpt ≠ none) (h2 : st.keysOpt ≠ none) :
    hmInitialize cfg st r = (Except.ok (), st) := by
  unfold hmInitialize
  rw [if_pos ⟨h1, h2⟩]

theorem hmInitialize_ok_initialized (cfg : CsvConfigM) (st : HMState) (r : RecordJs)
    (h : (hmInitialize cfg st r).1 = Except.ok ()) :
    (hmInitialize cfg st r).2.headersOpt ≠ none ∧
    (hmInitialize cfg st r).2.keysOpt ≠ none := by
  unfold hmInitialize at h ⊢
  by_cases hg : st.headersOpt ≠ none ∧ st.keysOpt ≠ none
  · rw [if_pos hg]
    exact hg
  · rw [if_neg hg] at h ⊢
    by_cases hk : (hmKeys1 cfg r).length = 0
    · rw [if_pos hk] at h
      simp at h
    · rw [if_neg hk]
      simp

/-- C5: after one successful initialize on a fresh CsvHeaderManager, a later
initialize call with any record — of any shape — returns success and leaves
the manager state, hence getHeaders and getKeys, unchanged. -/
theorem c5_initialize_idempotent (cfg : CsvConfigM) (r0 r1 : RecordJs)
    (h : (hmInitialize cfg hmFresh r0).1 = Except.ok ()) :
    hmInitialize cfg (hmInitialize cfg hmFresh r0).2 r1 =
      (Except.ok (), (hmInitialize cfg hmFresh r0).2) ∧
    hmGetHeaders (hmInitialize cfg (hmInitialize cfg hmFresh r0).2 r1).2 =
      hmGetHeaders (hmInitialize cfg hmFresh r0).2 ∧
    hmGetKeys (hmInitialize cfg (hmInitialize cfg hmFresh r0).2 r1).2 =
      hmGetKeys (hmInitialize cfg hmFresh r0).2 := by
  obtain ⟨h1, h2⟩ := hmInitialize_ok_initialized cfg hmFresh r0 h
  have hno := hmInitialize_noop_of_initialized cfg (hmInitialize cfg hmFresh r0).2 r1 h1 h2
  refine ⟨hno, ?_, ?_⟩ <;> rw [hno]

/-- Witness for C5: initialize from an id/name record, then re-initialize
with a differently shaped record. -/
theorem c5_initialize_idempotent_witness :
    (hmInitialize emptyCsvConfig hmFresh [("id", JsValue.vNum 1)]).1 = Except.ok () ∧
    (hmInitialize emptyCsvConfig
        (hmInitialize emptyCsvConfig hmFresh [("id", JsValue.vNum 1)]).2
        [("other", JsValue.vStr "x")] =
      (Except.ok (), (hmInitialize emptyCsvConfig hmFresh [("id", JsValue.vNum 1)]).2) ∧
    hmGetHeaders (hmInitialize emptyCsvConfig
        (hmInitialize emptyCsvConfig hmFresh [("id", JsValue.vNum 1)]).2
        [("other", JsValue.vStr "x")]).2 =
      hmGetHeaders (hmInitialize emptyCsvConfig hmFresh [("id", JsValue.vNum 1)]).2 ∧
    hmGetKeys (hmInitialize emptyCsvConfig
        (hmInitialize emptyCsvConfig hmFresh [("id", JsValue.vNum 1)]).2
        [("other", JsValue.vStr "x")]).2 =
      hmGetKeys (hmInitialize emptyCsvConfig hmFresh [("id", JsValue.vNum 1)]).2) :=
  ⟨rfl, c5_initialize_idempotent emptyCsvConfig [("id", JsValue.vNum 1)]
    [("other", JsValue.vStr "x")] rfl⟩

/-- C6 counterexample: the claim says getKeys (and objectToValues) throw
after a failed initialize, but the failing initialize has already stored the
empty key list, so getKeys returns the empty list and objectToValues an
empty row instead of throwing. -/
theorem c6_after_failure_counterexample :
    (hmInitialize emptyCsvConfig hmFresh []).1 =
      Except.error (WriterError.headerInitializationError
        "Cannot determine headers from empty object") ∧
    hmGetKeys (hmInitialize emptyCsvConfig hmFresh []).2 = Except.ok [] ∧
    hmObjectToValues (hmInitialize emptyCsvConfig hmFresh []).2 [] = Except.ok [] :=
  ⟨rfl, rfl, rfl⟩

/-- C6 (amended): initializing against a record with zero own keys and no
configured includeKeys fails with a HeaderInitializationError; before any
initialize call, getHeaders, getKeys and objectToValues all throw a
HeaderInitializationError; after the failed initialize getHeaders still
throws, but getKeys returns the stored empty key list and objectToValues the
empty row. -/
theorem c6_empty_record_failure (cfg : CsvConfigM) (r q : RecordJs)
    (hik : cfg.includeKeys = none) (hkeys : recKeys r = []) :
    (hmInitialize cfg hmFresh r).1 =
      Except.error (WriterError.headerInitializationError
        "Cannot determine headers from empty object") ∧
    hmGetHeaders hmFresh =
      Except.error (WriterError.headerInitializationError "Headers not initialized") ∧
    hmGetKeys hmFresh =
      Except.error (WriterError.headerInitializationError "Keys not initialized") ∧
    hmObjectToValues hmFresh q =
      Except.error (WriterError.headerInitializationError "Keys not initialized") ∧
    hmGetHeaders (hmInitialize cfg hmFresh r).2 =
      Except.error (WriterError.headerInitializationError "Headers not initialized") ∧
    hmGetKeys (hmInitialize cfg hmFresh r).2 = Except.ok [] ∧
    hmObjectToValues (hmInitialize cfg hmFresh r).2 q = Except.ok [] := by
  have hstate : hmInitialize cfg hmFresh r =
      (Except.error (WriterError.headerInitializationError
        "Cannot determine headers from empty object"),
        { headersOpt := none, keysOpt := some [] }) := by
    unfold hmInitialize
    rw [if_neg (by simp [hmFresh])]
    have hz : hmKeys1 cfg r = [] := by simp [hmKeys1, hik, hkeys]
    rw [hz]
    simp [hmFresh]
  rw [hstate]
  refine ⟨rfl, rfl, rfl, rfl, rfl, rfl, rfl⟩

/-- Witness for C6 over the default configuration and the empty record. -/
theorem c6_empty_record_failure_witness :
    emptyCsvConfig.includeKeys = none ∧ recKeys [] = [] ∧
    ((hmInitialize emptyCsvConfig hmFresh []).1 =
      Except.error (WriterError.headerInitializationError
        "Cannot determine headers from empty object") ∧
    hmGetHeaders hmFresh =
      Except.error (WriterError.headerInitializationError "Headers not initialized") ∧
    hmGetKeys hmFresh =
      Except.error (WriterError.headerInitializationError "Keys not initialized") ∧
    hmObjectToValues hmFresh [] =
      Except.error (WriterError.headerInitializationError "Keys not initialized") ∧
    hmGetHeaders (hmInitialize emptyCsvConfig hmFresh []).2 =
      Except.error (WriterError.headerInitializationError "Headers not initialized") ∧
    hmGetKeys (hmInitialize emptyCsvConfig hmFresh []).2 = Except.ok [] ∧
    hmObjectToValues (hmInitialize emptyCsvConfig hmFresh []).2 [] = Except.ok []) :=
  ⟨rfl, rfl, c6_empty_record_failure emptyCsvConfig [] [] rfl rfl⟩

/-- C10: with an explicit headers list configured and no includeKeys,
initialize never validates the headers length against the resolved keys: for
any first record with a non-empty key set it succeeds, storing the headers
verbatim and the record's keys; an empty headers list still seeds the keys
from the record but yields an empty header row; and when the lengths differ,
the header line is built from a different number of cells than every data
row objectToValues produces. -/
theorem c10_headers_length_unchecked (cfg : CsvConfigM) (hs : List String)
    (r : RecordJs) (hh : cfg.headers = some hs) (hik : cfg.includeKeys = none)
    (hr : recKeys r ≠ []) :
    (hmInitialize cfg hmFresh r).1 = Except.ok () ∧
    (hmInitialize cfg hmFresh r).2 =
      { headersOpt := some hs, keysOpt := some (recKeys r) } ∧
    (hs = [] → ∀ dl qt : Char, formatRow dl qt (hs.map JsValue.vStr) = some "") ∧
    (∀ q : RecordJs, hmObjectToValues (hmInitialize cfg hmFresh r).2 q =
        Except.ok ((recKeys r).map (recGet q))) ∧
    (hs.length ≠ (recKeys r).length → ∀ q : RecordJs,
        (hs.map JsValue.vStr).length ≠ ((recKeys r).map (recGet q)).length) := by
  have hkz : hmKeys1 cfg r = recKeys r := by simp [hmKeys1, hik]
  have hlen0 : ¬ (hmKeys1 cfg r).length = 0 := by
    rw [hkz]
    simpa [List.length_eq_zero] using hr
  have hstate : hmInitialize cfg hmFresh r =
      (Except.ok (), { headersOpt := some hs, keysOpt := some (recKeys r) }) := by
    unfold hmInitialize
    rw [if_neg (by simp [hmFresh]), if_neg hlen0, hkz]
    have hhd : hmHeaders1 cfg (recKeys r) = hs := by simp [hmHeaders1, hh]
    rw [hhd]
  refine ⟨by rw [hstate], by rw [hstate], ?_, ?_, ?_⟩
  · intro hnil dl qt
    subst hnil
    rfl
  · intro q
    rw [hstate]
    simp [hmObjectToValues, hmGetKeys]
  · intro hne q
    simpa using hne

/-- Witness for C10 with an explicit empty headers list over an id record:
initialization succeeds, the header row is empty while data rows have one
cell. -/
theorem c10_headers_length_unchecked_witness :
    emptyHeadersCsvConfig.headers = some [] ∧
    emptyHeadersCsvConfig.includeKeys = none ∧
    recKeys [("id", JsValue.vNum 1)] ≠ [] ∧
    (hmInitialize emptyHeadersCsvConfig hmFresh [("id", JsValue.vNum 1)]).1 =
      Except.ok () ∧
    (hmInitialize emptyHeadersCsvConfig hmFresh [("id", JsValue.vNum 1)]).2 =
      { headersOpt := some [], keysOpt := some (recKeys [("id", JsValue.vNum 1)]) } ∧
    formatRow ',' '"' (([] : List String).map JsValue.vStr) = some "" ∧
    hmObjectToValues (hmInitialize emptyHeadersCsvConfig hmFresh
        [("id", JsValue.vNum 1)]).2 [("id", JsValue.vNum 1)] =
      Except.ok ((recKeys [("id", JsValue.vNum 1)]).map
        (recGet [("id", JsValue.vNum 1)])) ∧
    (([] : List String).map JsValue.vStr).length ≠
      ((recKeys [("id", JsValue.vNum 1)]).map (recGet [("id", JsValue.vNum 1)])).length := by
  have h := c10_headers_length_unchecked emptyHeadersCsvConfig [] [("id", JsValue.vNum 1)]
    rfl rfl (by decide)
  exact ⟨rfl, rfl, by decide, h.1, h.2.1, h.2.2.1 rfl ',' '"',
    h.2.2.2.1 [("id", JsValue.vNum 1)], h.2.2.2.2 (by decide) [("id", JsValue.vNum 1)]⟩

/-- C4 counterexample: the claim quantifies over every configured
single-character quote, but with quote '.' — accepted by validation — the
escape step's RegExp doubles every character of the string form "a." (the
pattern '.' matches any character), not only the quote characters: the code
yields "......" where the claim prescribes ".a...". -/
theorem c4_metachar_quote_counterexample :
    formatValue ',' '.' (JsValue.vStr "a.") = some "......" ∧
    String.singleton '.' ++
        replaceCharBy '.' (String.singleton '.' ++ String.singleton '.') "a." ++
        String.singleton '.' = ".a..." ∧
    formatValue ',' '.' (JsValue.vStr "a.") ≠
      some (String.singleton '.' ++
        replaceCharBy '.' (String.singleton '.' ++ String.singleton '.') "a." ++
        String.singleton '.') := by
  refine ⟨rfl, rfl, ?_⟩
  decide

/-- C4 (amended): provided the configured quote character is not a
JavaScript regular-expression metacharacter (the escape step builds a RegExp
from the quote), the formatter's output is the string form wrapped in the
quote with every embedded quote doubled exactly when the string form
contains the delimiter, a newline, a carriage return, or the quote, and the
string form unquoted otherwise; the string form itself is as the claim
states: null and undefined give the empty field, strings are verbatim,
numbers and booleans their canonical form, other values their JSON
serialization (valueStringForm). -/
theorem doubled_quote_ne_dollars (q : Char) (h : ¬ q = '$') :
    ¬ String.singleton q ++ String.singleton q = "$$" := by
  intro he
  apply h
  have hd := congrArg String.data he
  simp [String.singleton] at hd
  exact hd

theorem jsGlobalReplaceChar_literal (q : Char) (rep s : String)
    (hq : q ∉ regexMetachars) (hrep : ¬ rep = "$$") :
    jsGlobalReplaceChar q rep s = some (replaceCharBy q rep s) := by
  have hsub : ∀ c ∈ regexSyntaxErrorChars, c ∈ regexMetachars := by decide
  have hsyn : q ∉ regexSyntaxErrorChars := fun h => hq (hsub q h)
  have hdot : ¬ q = '.' := fun h => hq (by rw [h]; decide)
  have hcaret : ¬ q = '^' := fun h => hq (by rw [h]; decide)
  have hdollar : ¬ q = '$' := fun h => hq (by rw [h]; decide)
  have hpipe : ¬ q = '|' := fun h => hq (by rw [h]; decide)
  unfold jsGlobalReplaceChar replacementInterp
  rw [if_neg hsyn, if_neg hdot, if_neg hcaret, if_neg hdollar, if_neg hpipe,
    if_neg hrep]

theorem c4_escaping_iff (delim quote : Char) (v : JsValue)
    (hq : quote ∉ regexMetachars) :
    formatValue delim quote v =
      some (if strContainsChar (valueStringForm v) delim ∨
          strContainsChar (valueStringForm v) '\n' ∨
          strContainsChar (valueStringForm v) '\r' ∨
          strContainsChar (valueStringForm v) quote then
        String.singleton quote ++
          replaceCharBy quote (String.singleton quote ++ String.singleton quote)
            (valueStringForm v) ++ String.singleton quote
      else valueStringForm v) := by
  have hdollar : ¬ quote = '$' := fun h => hq (by rw [h]; decide)
  have hrep : ∀ s, jsGlobalReplaceChar quote
      (String.singleton quote ++ String.singleton quote) s =
      some (replaceCharBy quote
        (String.singleton quote ++ String.singleton quote) s) :=
    fun s => jsGlobalReplaceChar_literal quote _ s hq
      (doubled_quote_ne_dollars quote hdollar)
  have hemp : ∀ c : Char, strContainsChar "" c = false := fun _ => rfl
  cases v with
  | vNull => simp [formatValue, valueStringForm, hemp]
  | vUndefined => simp [formatValue, valueStringForm, hemp]
  | vStr s =>
    simp only [formatValue, valueStringForm, hrep]
    split_ifs <;> rfl
  | vNum n =>
    simp only [formatValue, valueStringForm, hrep]
    split_ifs <;> rfl
  | vBool b =>
    simp only [formatValue, valueStringForm, hrep]
    split_ifs <;> rfl
  | vObj j =>
    simp only [formatValue, valueStringForm, hrep]
    split_ifs <;> rfl

/-- Witness for C4 with the default delimiter and quote over a
comma-containing string. -/
theorem c4_escaping_iff_witness :
    '"' ∉ regexMetachars ∧
    formatValue ',' '"' (JsValue.vStr "a,b") =
      some (if strContainsChar (valueStringForm (JsValue.vStr "a,b")) ',' ∨
          strContainsChar (valueStringForm (JsValue.vStr "a,b")) '\n' ∨
          strContainsChar (valueStringForm (JsValue.vStr "a,b")) '\r' ∨
          strContainsChar (valueStringForm (JsValue.vStr "a,b")) '"' then
        String.singleton '"' ++
          replaceCharBy '"' (String.singleton '"' ++ String.singleton '"')
            (valueStringForm (JsValue.vStr "a,b")) ++ String.singleton '"'
      else valueStringForm (JsValue.vStr "a,b")) :=
  ⟨by decide, c4_escaping_iff ',' '"' (JsValue.vStr "a,b") (by decide)⟩

/-- C2: evaluation at the failing input.  In the cited CsvWriter
(src/src/writers/csv/CsvWriter.ts), write and writeSync write the header
only when the header manager is still uninitialized, so a second write-mode
write call appends its rows after the first call's content instead of
re-overwriting the header and truncating: writing one id-1 row and then one
id-2 row leaves the header and both rows, not the header and the id-2 row
only.  The repository's own test suite ('should overwrite file in write
mode' in CsvWriter.test.ts) and the discriminated-union copy of CsvWriter in
the repository — which re-runs writeHeaders on every write-mode write —
expect the claim's behavior, so the cited code contradicts its own tests. -/
theorem c2_second_write_appends :
    c2FileAfterTwoWrites = some "id\n1\n2\n" ∧
    c2FileAfterTwoWrites ≠ some "id\n2\n" := by
  refine ⟨rfl, ?_⟩
  decide

theorem jsonWrite_append_fresh (cfg : JsonWriterCfg) (hm : cfg.mode = WMode.append)
    (recs : List Json) (hr : recs ≠ []) (file : Option String) :
    jsonWrite cfg jsonFresh file recs =
      (match jsonLoadExisting cfg file [] with
      | Except.error e => (Except.error e, jsonFresh, file)
      | Except.ok l =>
        (Except.ok (), { dataArray := l ++ recs, isInit := true },
          some (jsonWriteData cfg (l ++ recs)))) := by
  have hlen : ¬ recs.length = 0 := by simpa [List.length_eq_zero] using hr
  unfold jsonWrite
  rw [if_neg hlen, hm]
  rfl

theorem jsonWrite_initialized (cfg : JsonWriterCfg) (hm : cfg.mode = WMode.append)
    (st : JsonWriterState) (hst : st.isInit = true) (file : Option String)
    (recs : List Json) (hr : recs ≠ []) :
    jsonWrite cfg st file recs =
      (Except.ok (), { dataArray := st.dataArray ++ recs, isInit := true },
        some (jsonWriteData cfg (st.dataArray ++ recs))) := by
  obtain ⟨da, ii⟩ := st
  simp only at hst
  subst hst
  have hlen : ¬ recs.length = 0 := by simpa [List.length_eq_zero] using hr
  simp [jsonWrite, hm, hlen]

theorem jsonAppend_initialized (cfg : JsonWriterCfg) (st : JsonWriterState)
    (hst : st.isInit = true) (file : Option String) (recs : List Json)
    (hr : recs ≠ []) :
    jsonAppend cfg st file recs =
      (Except.ok (), { dataArray := st.dataArray ++ recs, isInit := true },
        some (jsonWriteData cfg (st.dataArray ++ recs))) := by
  obtain ⟨da, ii⟩ := st
  simp only at hst
  subst hst
  have hlen : ¬ recs.length = 0 := by simpa [List.length_eq_zero] using hr
  simp [jsonAppend, hlen]

/-- C7: for a JSON writer in append mode, the first non-empty write or append
call performs the one and only load of the on-disk content: the parse input
is the content with one leading UTF-8 BOM stripped; blank content leaves the
mirror empty; a parsed array becomes the mirror, any other parsed value a
single-element mirror; unparsable content fails with a JsonFormattingError
and leaves writer and file untouched; a successful call persists the loaded
array concatenated with the new records and sets isInitialized, after which
every write and append ignores the file content entirely (its result is the
mirror plus the records, identical for any two file states), so the file is
never re-read during the writer's lifetime. -/
theorem c7_json_append_loads_once (cfg : JsonWriterCfg) (hm : cfg.mode = WMode.append)
    (recs : List Json) (hr : recs ≠ []) (s : String) (st : JsonWriterState)
    (hst : st.isInit = true) (f g : Option String) (l : JsonList) (j : Json) :
    (jsonWrite cfg jsonFresh none recs =
      (Except.ok (), { dataArray := recs, isInit := true },
        some (jsonWriteData cfg recs))) ∧
    (¬ jsTrimmedNonempty (stripLeadingBom s) →
      jsonWrite cfg jsonFresh (some s) recs =
        (Except.ok (), { dataArray := recs, isInit := true },
          some (jsonWriteData cfg recs))) ∧
    (jsTrimmedNonempty (stripLeadingBom s) →
      jsonParse (stripLeadingBom s) = some (Json.jarr l) →
      jsonWrite cfg jsonFresh (some s) recs =
        (Except.ok (), { dataArray := ofJsonList l ++ recs, isInit := true },
          some (jsonWriteData cfg (ofJsonList l ++ recs)))) ∧
    (jsTrimmedNonempty (stripLeadingBom s) →
      jsonParse (stripLeadingBom s) = some j → (∀ l2, j ≠ Json.jarr l2) →
      jsonWrite cfg jsonFresh (some s) recs =
        (Except.ok (), { dataArray := [j] ++ recs, isInit := true },
          some (jsonWriteData cfg ([j] ++ recs)))) ∧
    (jsTrimmedNonempty (stripLeadingBom s) →
      jsonParse (stripLeadingBom s) = none →
      jsonWrite cfg jsonFresh (some s) recs =
        (Except.error (WriterError.jsonFormattingError
          "Failed to parse existing JSON file"), jsonFresh, some s)) ∧
    (jsonWrite cfg st f recs =
      (Except.ok (), { dataArray := st.dataArray ++ recs, isInit := true },
        some (jsonWriteData cfg (st.dataArray ++ recs)))) ∧
    (jsonAppend cfg st f recs =
      (Except.ok (), { dataArray := st.dataArray ++ recs, isInit := true },
        some (jsonWriteData cfg (st.dataArray ++ recs)))) ∧
    jsonWrite cfg st f recs = jsonWrite cfg st g recs ∧
    jsonAppend cfg st f recs = jsonAppend cfg st g recs := by
  refine ⟨?_, ?_, ?_, ?_, ?_, ?_, ?_, ?_, ?_⟩
  · rw [jsonWrite_append_fresh cfg hm recs hr none]
    simp [jsonLoadExisting, hm]
  · intro h
    rw [jsonWrite_append_fresh cfg hm recs hr (some s)]
    simp [jsonLoadExisting, hm, h]
  · intro ht hp
    rw [jsonWrite_append_fresh cfg hm recs hr (some s)]
    simp [jsonLoadExisting, hm, ht, hp]
  · intro ht hp hna
    rw [jsonWrite_append_fresh cfg hm recs hr (some s)]
    cases j with
    | jarr l2 => exact absurd rfl (hna l2)
    | jnull => simp [jsonLoadExisting, hm, ht, hp]
    | jbool b => simp [jsonLoadExisting, hm, ht, hp]
    | jnum n => simp [jsonLoadExisting, hm, ht, hp]
    | jstr t => simp [jsonLoadExisting, hm, ht, hp]
    | jobj m => simp [jsonLoadExisting, hm, ht, hp]
  · intro ht hp
    rw [jsonWrite_append_fresh cfg hm recs hr (some s)]
    simp [jsonLoadExisting, hm, ht, hp]
  · exact jsonWrite_initialized cfg hm st hst f recs hr
  · exact jsonAppend_initialized cfg st hst f recs hr
  · rw [jsonWrite_initialized cfg hm st hst f recs hr,
      jsonWrite_initialized cfg hm st hst g recs hr]
  · rw [jsonAppend_initialized cfg st hst f recs hr,
      jsonAppend_initialized cfg st hst g recs hr]

/-- Witness for C7: an append-mode writer over existing content "[1]", an
already-initialized writer state, and two different file states. -/
theorem c7_json_append_loads_once_witness :
    (jsonCfgPlain WMode.append).mode = WMode.append ∧
    ([Json.jnum 3] : List Json) ≠ [] ∧
    (JsonWriterState.mk [Json.jnum 9] true).isInit = true ∧
    jsTrimmedNonempty (stripLeadingBom "[1]") = true ∧
    jsonParse (stripLeadingBom "[1]") =
      some (Json.jarr (JsonList.cons (Json.jnum 1) JsonList.nil)) ∧
    ((jsonWrite (jsonCfgPlain WMode.append) jsonFresh none [Json.jnum 3] =
      (Except.ok (), { dataArray := [Json.jnum 3], isInit := true },
        some (jsonWriteData (jsonCfgPlain WMode.append) [Json.jnum 3]))) ∧
    (¬ jsTrimmedNonempty (stripLeadingBom "[1]") →
      jsonWrite (jsonCfgPlain WMode.append) jsonFresh (some "[1]") [Json.jnum 3] =
        (Except.ok (), { dataArray := [Json.jnum 3], isInit := true },
          some (jsonWriteData (jsonCfgPlain WMode.append) [Json.jnum 3]))) ∧
    (jsTrimmedNonempty (stripLeadingBom "[1]") →
      jsonParse (stripLeadingBom "[1]") =
        some (Json.jarr (JsonList.cons (Json.jnum 1) JsonList.nil)) →
      jsonWrite (jsonCfgPlain WMode.append) jsonFresh (some "[1]") [Json.jnum 3] =
        (Except.ok (),
          { dataArray := ofJsonList (JsonList.cons (Json.jnum 1) JsonList.nil) ++
              [Json.jnum 3], isInit := true },
          some (jsonWriteData (jsonCfgPlain WMode.append)
            (ofJsonList (JsonList.cons (Json.jnum 1) JsonList.nil) ++ [Json.jnum 3])))) ∧
    (jsTrimmedNonempty (stripLeadingBom "[1]") →
      jsonParse (stripLeadingBom "[1]") = some (Json.jnum 7) →
      (∀ l2, Json.jnum 7 ≠ Json.jarr l2) →
      jsonWrite (jsonCfgPlain WMode.append) jsonFresh (some "[1]") [Json.jnum 3] =
        (Except.ok (), { dataArray := [Json.jnum 7] ++ [Json.jnum 3], isInit := true },
          some (jsonWriteData (jsonCfgPlain WMode.append)
            ([Json.jnum 7] ++ [Json.jnum 3])))) ∧
    (jsTrimmedNonempty (stripLeadingBom "[1]") →
      jsonParse (stripLeadingBom "[1]") = none →
      jsonWrite (jsonCfgPlain WMode.append) jsonFresh (some "[1]") [Json.jnum 3] =
        (Except.error (WriterError.jsonFormattingError
          "Failed to parse existing JSON file"), jsonFresh, some "[1]")) ∧
    (jsonWrite (jsonCfgPlain WMode.append) (JsonWriterState.mk [Json.jnum 9] true)
        (some "[2]") [Json.jnum 3] =
      (Except.ok (),
        { dataArray := (JsonWriterState.mk [Json.jnum 9] true).dataArray ++ [Json.jnum 3],
          isInit := true },
        some (jsonWriteData (jsonCfgPlain WMode.append)
          ((JsonWriterState.mk [Json.jnum 9] true).dataArray ++ [Json.jnum 3])))) ∧
    (jsonAppend (jsonCfgPlain WMode.append) (JsonWriterState.mk [Json.jnum 9] true)
        (some "[2]") [Json.jnum 3] =
      (Except.ok (),
        { dataArray := (JsonWriterState.mk [Json.jnum 9] true).dataArray ++ [Json.jnum 3],
          isInit := true },
        some (jsonWriteData (jsonCfgPlain WMode.append)
          ((JsonWriterState.mk [Json.jnum 9] true).dataArray ++ [Json.jnum 3])))) ∧
    jsonWrite (jsonCfgPlain WMode.append) (JsonWriterState.mk [Json.jnum 9] true)
        (some "[2]") [Json.jnum 3] =
      jsonWrite (jsonCfgPlain WMode.append) (JsonWriterState.mk [Json.jnum 9] true)
        none [Json.jnum 3] ∧
    jsonAppend (jsonCfgPlain WMode.append) (JsonWriterState.mk [Json.jnum 9] true)
        (some "[2]") [Json.jnum 3] =
      jsonAppend (jsonCfgPlain WMode.append) (JsonWriterState.mk [Json.jnum 9] true)
        none [Json.jnum 3]) :=
  ⟨rfl, by simp, rfl, rfl, rfl,
    c7_json_append_loads_once (jsonCfgPlain WMode.append) rfl [Json.jnum 3] (by simp)
      "[1]" (JsonWriterState.mk [Json.jnum 9] true) rfl (some "[2]") none
      (JsonList.cons (Json.jnum 1) JsonList.nil) (Json.jnum 7)⟩

theorem joinSep_append (sep : String) :
    ∀ (l1 l2 : List String), l1 ≠ [] → l2 ≠ [] →
      joinSep sep (l1 ++ l2) = joinSep sep l1 ++ sep ++ joinSep sep l2 := by
  intro l1
  induction l1 with
  | nil =>
    intro l2 h1 _
    exact absurd rfl h1
  | cons x t ih =>
    intro l2 _ h2
    cases t with
    | nil =>
      cases l2 with
      | nil => exact absurd rfl h2
      | cons y u => simp [joinSep]
    | cons y u =>
      have hih := ih l2 (by simp) h2
      simp only [List.cons_append] at hih ⊢
      simp only [joinSep]
      rw [hih]
      simp [String.append_assoc]

theorem csvRowsBlock_append (cfg : CsvWriterCfg) (K : List String)
    (a c : List RecordJs) (ha : a ≠ []) (hc : c ≠ []) :
    csvRowsBlock cfg K (a ++ c) = csvRowsBlock cfg K a ++ csvRowsBlock cfg K c := by
  unfold csvRowsBlock
  rw [List.map_append,
    joinSep_append "\n" _ _ (by simpa using ha) (by simpa using hc)]
  simp [String.append_assoc]

theorem concatAll_rowsBlocks (cfg : CsvWriterCfg) (K : List String) :
    ∀ (batches : List (List RecordJs)), (∀ c ∈ batches, c ≠ []) → batches ≠ [] →
      concatAll (batches.map (csvRowsBlock cfg K)) =
        csvRowsBlock cfg K batches.flatten := by
  intro batches
  induction batches with
  | nil =>
    intro _ h
    exact absurd rfl h
  | cons c rest ih =>
    intro hm _
    cases rest with
    | nil => simp [concatAll]
    | cons d u =>
      have hd : d ≠ [] := hm d (by simp)
      have hflat : (d :: u).flatten ≠ [] := by
        simp only [List.flatten_cons]
        intro h
        exact hd (List.append_eq_nil.mp h).1
      have hrec := ih (fun x hx => hm x (by simp [hx])) (by simp)
      simp only [List.map_cons, concatAll, List.flatten_cons] at hrec ⊢
      rw [hrec, ← csvRowsBlock_append cfg K c (d ++ u.flatten) (hm c (by simp))
        (by simpa using hflat)]

theorem headD_append {α : Type} (l1 l2 : List α) (d : α) (h : l1 ≠ []) :
    (l1 ++ l2).headD d = l1.headD d := by
  cases l1 with
  | nil => exact absurd rfl h
  | cons x t => simp

theorem hmInitialize_fresh_ok_of_keys (cfg : CsvConfigM) (r : RecordJs)
    (h : ¬ (hmKeys1 cfg r).length = 0) :
    hmInitialize cfg hmFresh r =
      (Except.ok (),
        { headersOpt := some (hmHeaders1 cfg (hmKeys1 cfg r)),
          keysOpt := some (hmKeys1 cfg r) }) := by
  unfold hmInitialize
  rw [if_neg (by simp [hmFresh]), if_neg h]

theorem hmInitialize_fresh_err_of_keys (cfg : CsvConfigM) (r : RecordJs)
    (h : (hmKeys1 cfg r).length = 0) :
    hmInitialize cfg hmFresh r =
      (Except.error (WriterError.headerInitializationError
        "Cannot determine headers from empty object"),
        { headersOpt := none, keysOpt := some (hmKeys1 cfg r) }) := by
  unfold hmInitialize
  rw [if_neg (by simp [hmFresh]), if_pos h]
  rfl

theorem jsGlobalReplaceChar_ne_none (q : Char) (rep s : String)
    (hq : q ∉ regexSyntaxErrorChars) :
    jsGlobalReplaceChar q rep s ≠ none := by
  unfold jsGlobalReplaceChar
  rw [if_neg hq]
  split_ifs <;> simp

theorem formatValue_ne_none (delim quote : Char) (v : JsValue)
    (hq : quote ∉ regexSyntaxErrorChars) :
    formatValue delim quote v ≠ none := by
  rcases hrw : jsGlobalReplaceChar quote
      (String.singleton quote ++ String.singleton quote) (valueStringForm v)
    with _ | t
  · exact absurd hrw (jsGlobalReplaceChar_ne_none quote
      (String.singleton quote ++ String.singleton quote) (valueStringForm v) hq)
  · cases v with
    | vNull => simp [formatValue]
    | vUndefined => simp [formatValue]
    | vStr u =>
      unfold formatValue
      dsimp only
      rw [hrw]
      split_ifs <;> simp
    | vNum n =>
      unfold formatValue
      dsimp only
      rw [hrw]
      split_ifs <;> simp
    | vBool b =>
      unfold formatValue
      dsimp only
      rw [hrw]
      split_ifs <;> simp
    | vObj j =>
      unfold formatValue
      dsimp only
      rw [hrw]
      split_ifs <;> simp

theorem optionAll_map_getD {α β : Type} (f : α → Option β) (d : β) :
    ∀ l : List α, (∀ x ∈ l, f x ≠ none) →
      optionAll (l.map f) = some (l.map (fun x => (f x).getD d)) := by
  intro l
  induction l with
  | nil => intro _; rfl
  | cons x t ih =>
    intro h
    rcases hfx : f x with _ | y
    · exact absurd hfx (h x (by simp))
    · simp only [List.map_cons, hfx, optionAll,
        ih (fun z hz => h z (by simp [hz]))]
      simp [hfx]

theorem formatRow_eq_some (delim quote : Char) (values : List JsValue)
    (hq : quote ∉ regexSyntaxErrorChars) :
    formatRow delim quote values = some (formatRowStr delim quote values) := by
  unfold formatRow formatRowStr
  rw [optionAll_map_getD (formatValue delim quote) "" values
    (fun v _ => formatValue_ne_none delim quote v hq)]

theorem csvHeaderContent_eq_some (cfg : CsvWriterCfg) (hs : List String)
    (hq : cfg.quote ∉ regexSyntaxErrorChars) :
    csvHeaderContent cfg hs = some (csvHeaderContentStr cfg hs) := by
  unfold csvHeaderContent csvHeaderContentStr
  rw [formatRow_eq_some cfg.delim cfg.quote (hs.map JsValue.vStr) hq]

theorem csvWriteHeaders_ok (cfg : CsvWriterCfg) (H : List String) (st : HMState)
    (hh : st.headersOpt = some H) (file : Option String)
    (hq : cfg.quote ∉ regexSyntaxErrorChars) :
    csvWriteHeaders cfg st file =
      (Except.ok (), some (headerFileContent cfg (csvHeaderContentStr cfg H) file)) := by
  rcases hcm : cfg.mode with _ | _ <;> rcases file with _ | s <;>
    simp [csvWriteHeaders, headerFileContent, hmGetHeaders, hh, hcm,
      csvHeaderContent_eq_some cfg H hq]

theorem csvWriteRows_ok (cfg : CsvWriterCfg) (st : HMState) (K : List String)
    (hk : st.keysOpt = some K) (file : Option String) (data : List RecordJs)
    (hq : cfg.quote ∉ regexSyntaxErrorChars) :
    csvWriteRows cfg st file data =
      (Except.ok (), some (file.getD "" ++ csvRowsBlock cfg K data)) := by
  unfold csvWriteRows
  rw [show hmGetKeys st = Except.ok K by simp [hmGetKeys, hk]]
  dsimp only
  rw [optionAll_map_getD
    (fun r => formatRow cfg.delim cfg.quote (K.map (recGet r))) "" data
    (fun r _ => by
      simp [formatRow_eq_some cfg.delim cfg.quote (K.map (recGet r)) hq])]
  rfl

theorem csvWriteSync_fresh_err (cfg : CsvWriterCfg) (file : Option String)
    (data : List RecordJs) (hd : data ≠ [])
    (h : (hmKeys1 cfg.csvConfig (data.headD [])).length = 0) :
    csvWriteSync cfg hmFresh file data =
      (Except.error (WriterError.headerInitializationError
        "Cannot determine headers from empty object"),
        { headersOpt := none, keysOpt := some (hmKeys1 cfg.csvConfig (data.headD [])) },
        file) := by
  have hlen : ¬ data.length = 0 := by simpa [List.length_eq_zero] using hd
  unfold csvWriteSync
  rw [if_neg hlen, if_neg (by simp [hmIsInitialized, hmFresh]),
    hmInitialize_fresh_err_of_keys cfg.csvConfig (data.headD []) h]

theorem csvWriteSync_fresh_ok (cfg : CsvWriterCfg) (file : Option String)
    (data : List RecordJs) (hd : data ≠ [])
    (h : ¬ (hmKeys1 cfg.csvConfig (data.headD [])).length = 0)
    (hq : cfg.quote ∉ regexSyntaxErrorChars) :
    csvWriteSync cfg hmFresh file data =
      (Except.ok (),
        { headersOpt :=
            some (hmHeaders1 cfg.csvConfig (hmKeys1 cfg.csvConfig (data.headD []))),
          keysOpt := some (hmKeys1 cfg.csvConfig (data.headD [])) },
        some (headerFileContent cfg
            (csvHeaderContentStr cfg
              (hmHeaders1 cfg.csvConfig (hmKeys1 cfg.csvConfig (data.headD []))))
            file ++
          csvRowsBlock cfg (hmKeys1 cfg.csvConfig (data.headD [])) data)) := by
  have hlen : ¬ data.length = 0 := by simpa [List.length_eq_zero] using hd
  unfold csvWriteSync
  rw [if_neg hlen, if_neg (by simp [hmIsInitialized, hmFresh]),
    hmInitialize_fresh_ok_of_keys cfg.csvConfig (data.headD []) h]
  dsimp only
  rw [csvWriteHeaders_ok cfg
    (hmHeaders1 cfg.csvConfig (hmKeys1 cfg.csvConfig (data.headD []))) _ rfl file hq]
  dsimp only
  rw [csvWriteRows_ok cfg _ (hmKeys1 cfg.csvConfig (data.headD [])) rfl
    (some (headerFileContent cfg
      (csvHeaderContentStr cfg
        (hmHeaders1 cfg.csvConfig (hmKeys1 cfg.csvConfig (data.headD []))))
      file)) data hq]
  simp

theorem csvAppendSync_initialized (cfg : CsvWriterCfg) (st : HMState) (K : List String)
    (hin : hmIsInitialized st = true) (hk : st.keysOpt = some K)
    (content : String) (data : List RecordJs) (hd : data ≠ [])
    (hq : cfg.quote ∉ regexSyntaxErrorChars) :
    csvAppendSync cfg st (some content) data =
      (Except.ok (), st, some (content ++ csvRowsBlock cfg K data)) := by
  have hlen : ¬ data.length = 0 := by simpa [List.length_eq_zero] using hd
  unfold csvAppendSync
  rw [if_neg hlen, if_pos hin,
    csvWriteRows_ok cfg st K hk (some content) data hq]
  simp

theorem streamBatchesCsv_initialized (cfg : CsvWriterCfg) (K : List String)
    (hq : cfg.quote ∉ regexSyntaxErrorChars) :
    ∀ (batches : List (List RecordJs)) (st : HMState) (content : String),
      hmIsInitialized st = true → st.keysOpt = some K →
      (∀ c ∈ batches, c ≠ []) →
      streamBatches (csvStepW cfg) (csvStepA cfg) false (st, some content) batches =
        (Except.ok (),
          (st, some (content ++ concatAll (batches.map (csvRowsBlock cfg K))))) := by
  intro batches
  induction batches with
  | nil =>
    intro st content _ _ _
    simp [streamBatches, concatAll]
  | cons c rest ih =>
    intro st content hin hk hne
    have hstep : csvStepA cfg (st, some content) c =
        (Except.ok (), (st, some (content ++ csvRowsBlock cfg K c))) := by
      simp [csvStepA,
        csvAppendSync_initialized cfg st K hin hk content c (hne c (by simp)) hq]
    simp only [streamBatches, cond_false, hstep]
    rw [ih st (content ++ csvRowsBlock cfg K c) hin hk
      (fun x hx => hne x (by simp [hx]))]
    simp [concatAll, String.append_assoc]

theorem jsonWrite_write_mode (cfg : JsonWriterCfg) (hm : cfg.mode = WMode.write)
    (st : JsonWriterState) (file : Option String) (data : List Json)
    (hd : data ≠ []) :
    jsonWrite cfg st file data =
      (Except.ok (), { dataArray := data, isInit := true },
        some (jsonWriteData cfg data)) := by
  have hlen : ¬ data.length = 0 := by simpa [List.length_eq_zero] using hd
  unfold jsonWrite
  rw [if_neg hlen, hm]

theorem streamBatchesJson_initialized (cfg : JsonWriterCfg) :
    ∀ (batches : List (List Json)) (da : List Json) (file : Option String),
      (∀ c ∈ batches, c ≠ []) →
      streamBatches (jsonStepW cfg) (jsonStepA cfg) false
          (JsonWriterState.mk da true, file) batches =
        (Except.ok (), (JsonWriterState.mk (da ++ batches.flatten) true,
          if batches.isEmpty then file
          else some (jsonWriteData cfg (da ++ batches.flatten)))) := by
  intro batches
  induction batches with
  | nil =>
    intro da file _
    simp [streamBatches]
  | cons c rest ih =>
    intro da file hne
    have hstep : jsonStepA cfg (JsonWriterState.mk da true, file) c =
        (Except.ok (), (JsonWriterState.mk (da ++ c) true,
          some (jsonWriteData cfg (da ++ c)))) := by
      simp [jsonStepA,
        jsonAppend_initialized cfg (JsonWriterState.mk da true) rfl file c
          (hne c (by simp))]
    simp only [streamBatches, cond_false, hstep]
    rw [ih (da ++ c) (some (jsonWriteData cfg (da ++ c)))
      (fun x hx => hne x (by simp [hx]))]
    cases rest with
    | nil => simp
    | cons d u => simp [List.append_assoc]

/-- Counterexample for C1 as stated: with quote '(' (whose single-character
RegExp construction throws a SyntaxError inside the escape step), batch size 1
and records [{a:"x"}], [{a:"("}], streaming persists the first batch
("a\nx\n") before the second batch's append fails, while the single write
fails while formatting the rows right after writing the header line ("a\n"):
the two file contents differ. -/
theorem c1_paren_quote_counterexample :
    (streamCsv c1ParenCfg 1 hmFresh none c1ParenRecords).2.2 = some "a\nx\n" ∧
    (csvWriteSync c1ParenCfg hmFresh none c1ParenRecords).2.2 = some "a\n" ∧
    (streamCsv c1ParenCfg 1 hmFresh none c1ParenRecords).2.2 ≠
      (csvWriteSync c1ParenCfg hmFresh none c1ParenRecords).2.2 :=
  ⟨rfl, rfl, by decide⟩

/-- C1 (amended): streaming any non-empty source through
StreamingWriter.stream with any batch size b ≥ 1 — first batch through the
writer's write, later batches through append — leaves the destination file
with content identical to one write call carrying the whole source, for a
fresh JSON writer unconditionally, and for a fresh CSV writer provided its
quote character is not one of the characters whose single-character RegExp
construction throws a SyntaxError; in either write or append mode (the modes
live inside the two configurations, which are arbitrary), over any initial
file state. -/
theorem c1_stream_write_equivalence (ccfg : CsvWriterCfg) (jcfg : JsonWriterCfg)
    (hq : ccfg.quote ∉ regexSyntaxErrorChars)
    (b : Nat) (hb : 1 ≤ b) (csrc : List RecordJs) (hcs : csrc ≠ [])
    (jsrc : List Json) (hjs : jsrc ≠ []) (cfile jfile : Option String) :
    (streamCsv ccfg b hmFresh cfile csrc).2.2 =
      (csvWriteSync ccfg hmFresh cfile csrc).2.2 ∧
    (streamJson jcfg b jsonFresh jfile jsrc).2.2 =
      (jsonWrite jcfg jsonFresh jfile jsrc).2.2 := by
  constructor
  · obtain ⟨hsz1, hsz2⟩ :=
      chunksAux_sizes b hb csrc [] (by simp only [List.length_nil]; omega)
    have hflat : (chunksAux b [] csrc).flatten = csrc := by
      simpa using chunksAux_flatten b csrc []
    have hne : ∀ c ∈ chunksAux b [] csrc, c ≠ [] := by
      intro c hc hnil
      have h1 := (hsz2 c hc).1
      rw [hnil] at h1
      simp at h1
    have hbs : (process b csrc).1.map Prod.snd = chunksAux b [] csrc := by
      rw [process_eq_chunks]
      exact numberFrom_map_snd 1 _
    rcases hL : chunksAux b [] csrc with _ | ⟨c1, rest⟩
    · rw [hL] at hflat
      simp at hflat
      exact absurd hflat hcs
    · have hc1 : c1 ≠ [] := hne c1 (by rw [hL]; simp)
      have hrest : ∀ c ∈ rest, c ≠ [] := fun c hc => hne c (by rw [hL]; simp [hc])
      have hflat2 : c1 ++ rest.flatten = csrc := by
        rw [hL] at hflat
        simpa using hflat
      have hhead : c1.headD [] = csrc.headD [] := by
        rw [← hflat2]
        exact (headD_append c1 rest.flatten [] hc1).symm
      unfold streamCsv
      rw [hbs, hL]
      by_cases hK : (hmKeys1 ccfg.csvConfig (csrc.headD [])).length = 0
      · have hK1 : (hmKeys1 ccfg.csvConfig (c1.headD [])).length = 0 := by
          rw [hhead]
          exact hK
        have hstep : csvStepW ccfg (hmFresh, cfile) c1 =
            (Except.error (WriterError.headerInitializationError
              "Cannot determine headers from empty object"),
              (HMState.mk none (some (hmKeys1 ccfg.csvConfig (c1.headD []))),
                cfile)) := by
          simp [csvStepW, csvWriteSync_fresh_err ccfg cfile c1 hc1 hK1]
        simp only [streamBatches, cond_true, hstep]
        rw [csvWriteSync_fresh_err ccfg cfile csrc hcs hK]
      · have hK1 : ¬ (hmKeys1 ccfg.csvConfig (c1.headD [])).length = 0 := by
          rw [hhead]
          exact hK
        have hstep : csvStepW ccfg (hmFresh, cfile) c1 =
            (Except.ok (),
              (HMState.mk
                (some (hmHeaders1 ccfg.csvConfig
                  (hmKeys1 ccfg.csvConfig (csrc.headD []))))
                (some (hmKeys1 ccfg.csvConfig (csrc.headD []))),
                some (headerFileContent ccfg
                    (csvHeaderContentStr ccfg (hmHeaders1 ccfg.csvConfig
                      (hmKeys1 ccfg.csvConfig (csrc.headD [])))) cfile ++
                  csvRowsBlock ccfg (hmKeys1 ccfg.csvConfig (csrc.headD []))
                    c1))) := by
          have hw := csvWriteSync_fresh_ok ccfg cfile c1 hc1 hK1 hq
          rw [hhead] at hw
          simp [csvStepW, hw]
        simp only [streamBatches, cond_true, hstep]
        rw [streamBatchesCsv_initialized ccfg
          (hmKeys1 ccfg.csvConfig (csrc.headD [])) hq rest
          (HMState.mk
            (some (hmHeaders1 ccfg.csvConfig (hmKeys1 ccfg.csvConfig (csrc.headD []))))
            (some (hmKeys1 ccfg.csvConfig (csrc.headD []))))
          (headerFileContent ccfg
              (csvHeaderContentStr ccfg (hmHeaders1 ccfg.csvConfig
                (hmKeys1 ccfg.csvConfig (csrc.headD [])))) cfile ++
            csvRowsBlock ccfg (hmKeys1 ccfg.csvConfig (csrc.headD [])) c1)
          (by simp [hmIsInitialized]) rfl hrest]
        rw [csvWriteSync_fresh_ok ccfg cfile csrc hcs hK hq]
        cases rest with
        | nil =>
          have hc1src : c1 = csrc := by simpa using hflat2
          simp [concatAll, hc1src]
        | cons d u =>
          have hd : d ≠ [] := hrest d (by simp)
          have hflatne : (d :: u).flatten ≠ [] := by
            simp only [List.flatten_cons]
            intro hx
            exact hd (List.append_eq_nil.mp hx).1
          rw [concatAll_rowsBlocks ccfg (hmKeys1 ccfg.csvConfig (csrc.headD []))
            (d :: u) hrest (by simp)]
          rw [String.append_assoc]
          rw [← csvRowsBlock_append ccfg (hmKeys1 ccfg.csvConfig (csrc.headD []))
            c1 (d :: u).flatten hc1 hflatne]
          rw [hflat2]
  · obtain ⟨hsz1, hsz2⟩ :=
      chunksAux_sizes b hb jsrc [] (by simp only [List.length_nil]; omega)
    have hflat : (chunksAux b [] jsrc).flatten = jsrc := by
      simpa using chunksAux_flatten b jsrc []
    have hne : ∀ c ∈ chunksAux b [] jsrc, c ≠ [] := by
      intro c hc hnil
      have h1 := (hsz2 c hc).1
      rw [hnil] at h1
      simp at h1
    have hbs : (process b jsrc).1.map Prod.snd = chunksAux b [] jsrc := by
      rw [process_eq_chunks]
      exact numberFrom_map_snd 1 _
    rcases hL : chunksAux b [] jsrc with _ | ⟨c1, rest⟩
    · rw [hL] at hflat
      simp at hflat
      exact absurd hflat hjs
    · have hc1 : c1 ≠ [] := hne c1 (by rw [hL]; simp)
      have hrest : ∀ c ∈ rest, c ≠ [] := fun c hc => hne c (by rw [hL]; simp [hc])
      have hflat2 : c1 ++ rest.flatten = jsrc := by
        rw [hL] at hflat
        simpa using hflat
      unfold streamJson
      rw [hbs, hL]
      rcases hmode : jcfg.mode with _ | _
      · have hstep : jsonStepW jcfg (jsonFresh, jfile) c1 =
            (Except.ok (), (JsonWriterState.mk c1 true,
              some (jsonWriteData jcfg c1))) := by
          simp [jsonStepW, jsonWrite_write_mode jcfg hmode jsonFresh jfile c1 hc1]
        simp only [streamBatches, cond_true, hstep]
        rw [streamBatchesJson_initialized jcfg rest c1
          (some (jsonWriteData jcfg c1)) hrest]
        rw [jsonWrite_write_mode jcfg hmode jsonFresh jfile jsrc hjs]
        cases rest with
        | nil =>
          have hc1src : c1 = jsrc := by simpa using hflat2
          simp [hc1src]
        | cons d u =>
          simp only [List.isEmpty_cons]
          rw [hflat2]
          simp
      · rcases hload : jsonLoadExisting jcfg jfile [] with e | l
        · have hstep : jsonStepW jcfg (jsonFresh, jfile) c1 =
              (Except.error e, (jsonFresh, jfile)) := by
            unfold jsonStepW
            rw [jsonWrite_append_fresh jcfg hmode c1 hc1 jfile, hload]
          simp only [streamBatches, cond_true, hstep]
          rw [jsonWrite_append_fresh jcfg hmode jsrc hjs jfile, hload]
        · have hstep : jsonStepW jcfg (jsonFresh, jfile) c1 =
              (Except.ok (), (JsonWriterState.mk (l ++ c1) true,
                some (jsonWriteData jcfg (l ++ c1)))) := by
            unfold jsonStepW
            rw [jsonWrite_append_fresh jcfg hmode c1 hc1 jfile, hload]
          simp only [streamBatches, cond_true, hstep]
          rw [streamBatchesJson_initialized jcfg rest (l ++ c1)
            (some (jsonWriteData jcfg (l ++ c1))) hrest]
          rw [jsonWrite_append_fresh jcfg hmode jsrc hjs jfile, hload]
          cases rest with
          | nil =>
            have hc1src : c1 = jsrc := by simpa using hflat2
            simp [hc1src]
          | cons d u =>
            simp only [List.isEmpty_cons]
            rw [List.append_assoc, hflat2]
            simp

/-- Witness for C1: batch size 2 over a three-record CSV source (write mode,
no existing file, default double-quote character) and a three-value JSON
source (append mode over existing content). -/
theorem c1_stream_write_equivalence_witness :
    (csvCfgPlain WMode.write).quote ∉ regexSyntaxErrorChars ∧
    1 ≤ 2 ∧
    ([[("id", JsValue.vNum 1)], [("id", JsValue.vNum 2)],
        [("id", JsValue.vNum 3)]] : List RecordJs) ≠ [] ∧
    ([Json.jnum 1, Json.jnum 2, Json.jnum 3] : List Json) ≠ [] ∧
    ((streamCsv (csvCfgPlain WMode.write) 2 hmFresh none
        [[("id", JsValue.vNum 1)], [("id", JsValue.vNum 2)],
          [("id", JsValue.vNum 3)]]).2.2 =
      (csvWriteSync (csvCfgPlain WMode.write) hmFresh none
        [[("id", JsValue.vNum 1)], [("id", JsValue.vNum 2)],
          [("id", JsValue.vNum 3)]]).2.2 ∧
    (streamJson (jsonCfgPlain WMode.append) 2 jsonFresh (some "[0]")
        [Json.jnum 1, Json.jnum 2, Json.jnum 3]).2.2 =
      (jsonWrite (jsonCfgPlain WMode.append) jsonFresh (some "[0]")
        [Json.jnum 1, Json.jnum 2, Json.jnum 3]).2.2) :=
  ⟨by decide, by decide, by simp, by simp,
    c1_stream_write_equivalence (csvCfgPlain WMode.write) (jsonCfgPlain WMode.append)
      (by decide) 2 (by decide)
      [[("id", JsValue.vNum 1)], [("id", JsValue.vNum 2)], [("id", JsValue.vNum 3)]]
      (by simp) [Json.jnum 1, Json.jnum 2, Json.jnum 3] (by simp)
      none (some "[0]")⟩

end ExportToolkit
